import Mathlib

/-!
# Verification of the telepresence client core

Shallow embedding of the client-side DNS override / routing installer and
of the pod-access tracker of the telepresence repository, together with
proofs settling the frozen claims about them.

The tracker model follows `podaccess.go` (the `podAccessTracker` type and
its operations); the routing model follows `dns_linux.go` (`routeDNS`,
`unrouteDNS`); the overriding-server and worker models follow
`runOverridingServer` and `Server.Worker`; the ingest model follows
`ingest.go` and `mount.go` (`ensureNoMountConflict`).  The tracker's
operations are serialized by its mutex in the source, so they are modelled
as atomic state transitions; the one place where the source touches tracker
state outside the mutex (the deferred channel close in `start`, which runs
after the explicit `Unlock`) is recorded on the emitted event.
-/

namespace Telepresence

/-! ## Association-list helpers (Go maps with unique keys) -/

def lookupKey {K V : Type} [DecidableEq K] (k : K) : List (K × V) → Option V
  | [] => none
  | (k', v) :: rest => if k' = k then some v else lookupKey k rest

def eraseKey {K V : Type} [DecidableEq K] (k : K) : List (K × V) → List (K × V)
  | [] => []
  | (k', v) :: rest => if k' = k then eraseKey k rest else (k', v) :: eraseKey k rest

def keysOf {K V : Type} : List (K × V) → List K
  | [] => []
  | (k, _) :: rest => k :: keysOf rest

def insertKeySet {K : Type} [DecidableEq K] (k : K) (s : List K) : List K :=
  if k ∈ s then s else s ++ [k]

/-! ## Pod-access tracker (`podaccess.go`)

`podAccessKey`, `podAccess`, `podAccessSync` and `podAccessTracker` become
`PodKey`, `PodAccess`, `PodSync` and `Tracker`.  Mount-ready channels are
identified by the `Nat` at which they were allocated (`nextChan` plays the
role of the allocator).  Each operation returns the new tracker state
together with the list of observable events it produced, in program order.
-/

structure PodKey where
  container : String
  podIP : String
deriving DecidableEq, Repr

structure PodSync where
  workload : String
deriving DecidableEq, Repr

/-- Observable events of the tracker.  `chanClosed fk ch underLock` records
that the mounts-ready channel `ch` of key `fk` was closed, and whether the
tracker's mutex was held at that point.  `mountStarted`/`forwardStarted`
record worker launches performed by `privateStart`; `cancelled`/`waited`
record `cancelPod()` and `wg.Wait()` in `privateDelete` (the wait returns
only once the worker counter reached zero). -/
inductive TrkEvent where
  | mountStarted (fk : PodKey)
  | forwardStarted (fk : PodKey) (port : String)
  | chanClosed (fk : PodKey) (ch : Nat) (underLock : Bool)
  | cancelled (fk : PodKey)
  | waited (fk : PodKey)
deriving DecidableEq, Repr

structure PodAccess where
  workload : String
  container : String
  podIP : String
  localPorts : List String
  sftpPort : Int
  ftpPort : Int
  mountPoint : String
  clientMountPoint : String
  localMountPort : Int
deriving DecidableEq, Repr

/-- `func (pa *podAccess) shouldForward() bool { return len(pa.localPorts) > 0 }` -/
def PodAccess.shouldForward (pa : PodAccess) : Bool := !pa.localPorts.isEmpty

/-- `shouldMount` from `mount.go`:
`(pa.ftpPort > 0 || pa.sftpPort > 0) && (pa.localMountPort > 0 || pa.clientMountPoint != "")`. -/
def PodAccess.shouldMount (pa : PodAccess) : Bool :=
  (decide (pa.ftpPort > 0) || decide (pa.sftpPort > 0)) &&
    (decide (pa.localMountPort > 0) || decide (pa.clientMountPoint ≠ ""))

/-- The `podAccessKey{container: pa.container, podIP: pa.podIP}` built in
`start`, `privateStart` and `getOrCreateMountsDone`. -/
def PodAccess.key (pa : PodAccess) : PodKey := ⟨pa.container, pa.podIP⟩

structure Tracker where
  alivePods : List (PodKey × PodSync)
  snapshot : List PodKey
  mountsReady : List (PodKey × Nat)
  nextChan : Nat
deriving DecidableEq, Repr

def newPodAccessTracker : Tracker := ⟨[], [], [], 0⟩

/-- `privateStart`: no-op unless something should be forwarded or mounted;
no-op if the key is already live; otherwise launches the mount worker and
one port-forward worker per local port and records the key as alive. -/
def Tracker.privateStart (t : Tracker) (pa : PodAccess) : Tracker × List TrkEvent :=
  if !(pa.shouldForward || pa.shouldMount) then (t, [])
  else if (lookupKey pa.key t.alivePods).isSome then (t, [])
  else
    ({ t with alivePods := t.alivePods ++ [(pa.key, ⟨pa.workload⟩)] },
      (if pa.shouldMount then [TrkEvent.mountStarted pa.key] else []) ++
        (if pa.shouldForward then pa.localPorts.map (TrkEvent.forwardStarted pa.key) else []))

/-- `start`: under the lock, adds the key to the snapshot set and calls
`privateStart`; the deferred block that removes and closes the
mounts-ready channel runs when `start` returns, i.e. after the
`lpf.Unlock()` at the end of the function body, hence `underLock = false`
on the emitted close event. -/
def Tracker.start (t : Tracker) (pa : PodAccess) : Tracker × List TrkEvent :=
  let t1 : Tracker := { t with snapshot := insertKeySet pa.key t.snapshot }
  let p := t1.privateStart pa
  match lookupKey pa.key p.1.mountsReady with
  | some md =>
      ({ p.1 with mountsReady := eraseKey pa.key p.1.mountsReady },
        p.2 ++ [TrkEvent.chanClosed pa.key md false])
  | none => (p.1, p.2)

/-- `initSnapshot`: replaces the snapshot set and the mounts-ready map by
fresh empty ones (channels that were still in the old map are dropped
without being closed). -/
def Tracker.initSnapshot (t : Tracker) : Tracker × List TrkEvent :=
  ({ t with snapshot := [], mountsReady := [] }, [])

/-- `getOrCreateMountsDone`: returns the existing channel for the key or
allocates and stores a fresh one. -/
def Tracker.getOrCreateMountsDone (t : Tracker) (pa : PodAccess) : Tracker × Nat :=
  match lookupKey pa.key t.mountsReady with
  | some md => (t, md)
  | none =>
      ({ t with mountsReady := t.mountsReady ++ [(pa.key, t.nextChan)],
                nextChan := t.nextChan + 1 }, t.nextChan)

/-- `privateDelete`: removes the key from `alivePods`; removes and closes
its mounts-ready channel while the lock is still held (`underLock = true`);
then (after unlocking) cancels the pod context and waits for the worker
wait-group to reach zero. -/
def Tracker.privateDelete (t : Tracker) (fk : PodKey) : Tracker × List TrkEvent :=
  let t1 : Tracker := { t with alivePods := eraseKey fk t.alivePods }
  match lookupKey fk t1.mountsReady with
  | some md =>
      ({ t1 with mountsReady := eraseKey fk t1.mountsReady },
        [TrkEvent.chanClosed fk md true, TrkEvent.cancelled fk, TrkEvent.waited fk])
  | none => (t1, [TrkEvent.cancelled fk, TrkEvent.waited fk])

/-- The loop body of `cancelUnwanted`: walk the entries of `alivePods`
(captured at entry) and `privateDelete` every key not in the snapshot
set. -/
def cancelUnwantedGo : List (PodKey × PodSync) → Tracker → Tracker × List TrkEvent
  | [], t => (t, [])
  | (fk, _) :: rest, t =>
      if fk ∈ t.snapshot then cancelUnwantedGo rest t
      else
        let p := t.privateDelete fk
        let q := cancelUnwantedGo rest p.1
        (q.1, p.2 ++ q.2)

def Tracker.cancelUnwanted (t : Tracker) : Tracker × List TrkEvent :=
  cancelUnwantedGo t.alivePods t

/-- The tracker operations reachable from the reconciliation loop. -/
inductive TrkOp where
  | initSnapshot
  | getOrCreateMountsDone (pa : PodAccess)
  | start (pa : PodAccess)
  | cancelUnwanted
deriving DecidableEq, Repr

def Tracker.applyOp (t : Tracker) : TrkOp → Tracker × List TrkEvent
  | .initSnapshot => t.initSnapshot
  | .getOrCreateMountsDone pa => ((t.getOrCreateMountsDone pa).1, [])
  | .start pa => t.start pa
  | .cancelUnwanted => t.cancelUnwanted

def Tracker.run (t : Tracker) : List TrkOp → Tracker × List TrkEvent
  | [] => (t, [])
  | op :: ops =>
      let p := t.applyOp op
      let q := p.1.run ops
      (q.1, p.2 ++ q.2)

/-! ### Reconciliation rounds (`handleAgentSnapshot` shape):
`initSnapshot`, then `start` per agent, then `cancelUnwanted`. -/

def startsGo : List PodAccess → Tracker → Tracker × List TrkEvent
  | [], t => (t, [])
  | pa :: rest, t =>
      let p := t.start pa
      let q := startsGo rest p.1
      (q.1, p.2 ++ q.2)

/-- One reconciliation round over the pod accesses derived from one agent
snapshot. -/
def Tracker.round (t : Tracker) (pas : List PodAccess) : Tracker × List TrkEvent :=
  let t1 := (t.initSnapshot).1
  let p := startsGo pas t1
  let q := p.1.cancelUnwanted
  (q.1, p.2 ++ q.2)

/-- The snapshot set built by a sequence of `start` calls. -/
def snapAfter (pas : List PodAccess) (s : List PodKey) : List PodKey :=
  pas.foldl (fun s pa => insertKeySet pa.key s) s

/-! ## Routing installer (`routeDNS` / `unrouteDNS` in the dns package)

The `nat` table is modelled by the state of the one chain the installer
owns (`TELEPRESENCE_DNS`: absent, or present with its rule list) plus the
jump targets of the `OUTPUT` chain.  Each `iptables` invocation of
`runNatTableCmd` becomes a command; the mutating commands whose error
aborts `routeDNS` can also be failed by an adversarial schedule
(modelling an `iptables` invocation that errors), in which case they have
no effect.  The three teardown commands of `unrouteDNS` ignore their exit
status in the source, so only their deterministic state effect is
modelled. -/

structure UdpAddr where
  ip : String
  port : Nat
deriving DecidableEq, Repr

inductive NatRule where
  | ret (srcIp : String) (srcPort : Nat)
  | dnat (destIp : String) (dport : Nat) (toDest : String)
deriving DecidableEq, Repr

def tpDNSChain : String := "TELEPRESENCE_DNS"

structure NatState where
  tpChain : Option (List NatRule)
  output : List String
deriving DecidableEq, Repr

inductive NatCmd where
  | newChain
  | appendRet (a : UdpAddr)
  | appendDnat (destIp : String) (toDest : String)
  | insertOutput
  | delOutputJump
  | flushChain
  | delChain
deriving DecidableEq, Repr

def delFirst (tgt : String) : List String → List String
  | [] => []
  | x :: rest => if x = tgt then rest else x :: delFirst tgt rest

/-- Number of jumps to the telepresence chain in the OUTPUT chain. -/
def countTp : List String → Nat
  | [] => 0
  | x :: rest => (if x = tpDNSChain then 1 else 0) + countTp rest

/-- iptables semantics of the three best-effort commands issued by
`unrouteDNS`: `-D OUTPUT -j CHAIN` removes the first matching jump,
`-F CHAIN` empties the chain when it exists, `-X CHAIN` deletes the chain
only when it exists, is empty and is unreferenced. -/
def NatState.execTeardownCmd (st : NatState) : NatCmd → NatState
  | .delOutputJump => { st with output := delFirst tpDNSChain st.output }
  | .flushChain => { st with tpChain := st.tpChain.map (fun _ => []) }
  | .delChain =>
      if st.tpChain = some [] ∧ tpDNSChain ∉ st.output then { st with tpChain := none } else st
  | _ => st

/-- iptables semantics of the mutating commands issued by `routeDNS`:
`none` is an endogenous failure (`-N` on an existing chain, `-A` on a
missing chain). -/
def NatState.execMutCmd (st : NatState) : NatCmd → Option NatState
  | .newChain => if st.tpChain.isSome then none else some { st with tpChain := some [] }
  | .appendRet a =>
      match st.tpChain with
      | some rs => some { st with tpChain := some (rs ++ [NatRule.ret a.ip a.port]) }
      | none => none
  | .appendDnat d toDest =>
      match st.tpChain with
      | some rs => some { st with tpChain := some (rs ++ [NatRule.dnat d 53 toDest]) }
      | none => none
  | .insertOutput => some { st with output := tpDNSChain :: st.output }
  | _ => none

structure NatRun where
  st : NatState
  ctr : Nat
  trace : List NatCmd
deriving DecidableEq, Repr

/-- Issue one fallible `iptables` command (`runNatTableCmd`): the schedule
may fail any mutating command; a failed command has no state effect. -/
def NatRun.mut (sched : Nat → Bool) (r : NatRun) (c : NatCmd) : NatRun × Bool :=
  match (if sched r.ctr then r.st.execMutCmd c else none) with
  | some st' => (⟨st', r.ctr + 1, r.trace ++ [c]⟩, true)
  | none => (⟨r.st, r.ctr + 1, r.trace ++ [c]⟩, false)

/-- `unrouteDNS`: best-effort `-D OUTPUT -j`, then `-F`, then `-X`;
the errors are ignored. -/
def NatRun.teardown (r : NatRun) : NatRun :=
  ⟨((r.st.execTeardownCmd NatCmd.delOutputJump).execTeardownCmd
      NatCmd.flushChain).execTeardownCmd NatCmd.delChain,
    r.ctr,
    r.trace ++ [NatCmd.delOutputJump, NatCmd.flushChain, NatCmd.delChain]⟩

def unrouteDNS (st : NatState) : NatState := (NatRun.teardown ⟨st, 0, []⟩).st

/-- Executes the next command only when no previous step failed
(each failing step makes `routeDNS` return its error). -/
def natStep (sched : Nat → Bool) (c : NatCmd) (pr : NatRun × Bool) : NatRun × Bool :=
  if pr.2 then pr.1.mut sched c else pr

def natSteps (sched : Nat → Bool) : List NatCmd → NatRun × Bool → NatRun × Bool
  | [], pr => pr
  | c :: rest, pr => natSteps sched rest (natStep sched c pr)

/-- Stage 0 of `routeDNS`: the initial `unrouteDNS` teardown. -/
def routeP0 (st : NatState) : NatRun × Bool := (NatRun.teardown ⟨st, 0, []⟩, true)

/-- Stage 1: `-N TELEPRESENCE_DNS`. -/
def routeP1 (sched : Nat → Bool) (st : NatState) : NatRun × Bool :=
  natStep sched NatCmd.newChain (routeP0 st)

/-- Stage 2: one `-A TELEPRESENCE_DNS … -j RETURN` per pool-local address. -/
def routeP2 (sched : Nat → Bool) (localDNSs : List UdpAddr) (st : NatState) : NatRun × Bool :=
  natSteps sched (localDNSs.map NatCmd.appendRet) (routeP1 sched st)

/-- Stage 3: the DNAT rule `-A … -p udp --dest dnsIP/32 --dport 53 -j DNAT
--to-destination toAddr`. -/
def routeP3 (sched : Nat → Bool) (dnsIP toAddr : String) (localDNSs : List UdpAddr)
    (st : NatState) : NatRun × Bool :=
  natStep sched (NatCmd.appendDnat (dnsIP ++ "/32") toAddr) (routeP2 sched localDNSs st)

/-- `routeDNS`: tear down any previous chain (`unrouteDNS`), create the
`TELEPRESENCE_DNS` chain, append one RETURN rule per pool-local address,
append the DNAT rule, and finally insert the jump
`-I OUTPUT 1 -j TELEPRESENCE_DNS`.  The boolean is `err == nil`; each
failing step aborts the remaining steps. -/
def routeDNS (sched : Nat → Bool) (dnsIP toAddr : String) (localDNSs : List UdpAddr)
    (st : NatState) : NatRun × Bool :=
  natStep sched NatCmd.insertOutput (routeP3 sched dnsIP toAddr localDNSs st)

/-- Well-formedness of the ambient firewall state: at most one OUTPUT jump
to the telepresence chain (the installer only ever inserts one), and no
dangling jump to a nonexistent chain (iptables cannot create one). -/
def natWF (st : NatState) : Prop :=
  countTp st.output ≤ 1 ∧ (st.tpChain = none → countTp st.output = 0)

/-- A pod access with neither ports to forward nor mounts to establish
(used as concrete test input). -/
def paPlain : PodAccess :=
  { workload := "w", container := "c1", podIP := "10.0.0.5", localPorts := [],
    sftpPort := 0, ftpPort := 0, mountPoint := "", clientMountPoint := "",
    localMountPort := 0 }

def kPlain : PodKey := ⟨"c1", "10.0.0.5"⟩

/-! ## Agent snapshot handling (`agents.go`)

`watchAgentsLoop` and `handleAgentSnapshot` from
`pkg/client/userd/trafficmgr/agents.go`.  The gRPC stream, the root-daemon
`WaitForAgentIP` call of `ensureAccess` and the session bookkeeping that
does not touch the tracker are oracles (`RecvErr`, `resolveIP`). -/

structure AgentInfo where
  name : String
  podName : String
  podIp : String
  sftpPort : Int
  ftpPort : Int
  containers : List (String × String)
deriving DecidableEq, Repr

structure IngKey where
  workload : String
  container : String
deriving DecidableEq, Repr

structure Ingest where
  key : IngKey
  agent : AgentInfo
  localMountPoint : String
  localMountPort : Int
  localPorts : List String
deriving DecidableEq, Repr

/-- `infosForKey` from `handleAgentSnapshot`: the agents whose name is the
ingest's workload and that carry the ingest's container. -/
def infosForKey (infos : List AgentInfo) (key : IngKey) : List AgentInfo :=
  infos.filter (fun info =>
    decide (info.name = key.workload) && decide (key.container ∈ keysOf info.containers))

/-- `ig.podAccess(rd)` from `ingest.go`: build the pod access for an
ingest.  `ensureAccess` may replace the pod IP by a local one obtained
from the root daemon; that rewriting is the oracle `resolveIP`. -/
def Ingest.podAccess (resolveIP : String → String) (ig : Ingest) : PodAccess :=
  { workload := ig.key.workload
    container := ig.key.container
    podIP := resolveIP ig.agent.podIp
    localPorts := ig.localPorts
    sftpPort := ig.agent.sftpPort
    ftpPort := ig.agent.ftpPort
    mountPoint := (lookupKey ig.key.container ig.agent.containers).getD ""
    clientMountPoint := ig.localMountPoint
    localMountPort := ig.localMountPort }

/-- The pod selected for the ingest is replaced by `ais[0]` when it is no
longer among the matching agents. -/
def chooseAgent (ig : Ingest) (ais : List AgentInfo) : AgentInfo :=
  if ais.any (fun cai => cai.podName = ig.agent.podName) then ig.agent else ais.headD ig.agent

/-- The `currentIngests.Range` loop of `handleAgentSnapshot`. -/
def handleIngests (infos : List AgentInfo) (resolveIP : String → String) :
    List Ingest → Tracker → Tracker × List TrkEvent
  | [], t => (t, [])
  | ig :: rest, t =>
      let ais := infosForKey infos ig.key
      if ais.length > 0 then
        let p := t.start (Ingest.podAccess resolveIP { ig with agent := chooseAgent ig ais })
        let q := handleIngests infos resolveIP rest p.1
        (q.1, p.2 ++ q.2)
      else handleIngests infos resolveIP rest t

/-- `handleAgentSnapshot`: `initSnapshot`, start every ingest that still
has a matching agent, then `cancelUnwanted`. -/
def handleAgentSnapshot (infos : List AgentInfo) (resolveIP : String → String)
    (igs : List Ingest) (t : Tracker) : Tracker × List TrkEvent :=
  let t1 := (t.initSnapshot).1
  let p := handleIngests infos resolveIP igs t1
  let q := p.1.cancelUnwanted
  (q.1, p.2 ++ q.2)

inductive RecvErr where
  | eof
  | other (msg : String)
deriving DecidableEq, Repr

/-- One iteration of `watchAgentsLoop` in which `stream.Recv()` returned an
error: the session handles a nil agent snapshot
(`s.handleAgentSnapshot(ctx, nil)`), then returns nil when the context is
done or the error is `io.EOF` (normal termination) and a wrapped receive
error otherwise. -/
def watchAgentsOnRecvError (ctxDone : Bool) (e : RecvErr) (resolveIP : String → String)
    (igs : List Ingest) (t : Tracker) : Option String × Tracker × List TrkEvent :=
  let p := handleAgentSnapshot [] resolveIP igs t
  (if ctxDone then none
   else
     match e with
     | .eof => none
     | .other msg => some ("manager.WatchAgents recv: " ++ msg),
   p.1, p.2)

/-- Concrete tracker used to witness `cancelUnwanted_reconciles`: one live
pod whose key is not in the snapshot set. -/
def tWitness : Tracker := ⟨[(kPlain, ⟨"w"⟩)], [], [], 0⟩

/-- Schedule that fails the third mutating command; with one pool address
this is the DNAT append (commands: `-N` at 0, `-A RETURN` at 1, `-A DNAT`
at 2, `-I OUTPUT` at 3). -/
def schedFailDnat : Nat → Bool := fun n => !(n == 2)

/-- Ten concrete pool-local addresses (capacity 10). -/
def poolAddrs10 : List UdpAddr :=
  [⟨"10.0.5.1", 40001⟩, ⟨"10.0.5.1", 40002⟩, ⟨"10.0.5.1", 40003⟩, ⟨"10.0.5.1", 40004⟩,
   ⟨"10.0.5.1", 40005⟩, ⟨"10.0.5.1", 40006⟩, ⟨"10.0.5.1", 40007⟩, ⟨"10.0.5.1", 40008⟩,
   ⟨"10.0.5.1", 40009⟩, ⟨"10.0.5.1", 40010⟩]

/-! ## Search-entry normalization (`runOverridingServer`, dns package)

The loop over `rf.Search` in `runOverridingServer`:
strip one leading dot byte, skip the entry if nothing remains, append a
trailing dot byte when the last byte is not a dot, and store
`strings.ToLower` of the result in `s.dropSuffixes`.  Go strings are
modelled as `List Char`. -/

/-- `if sp[0] == '.' { sp = sp[1:] }` -/
def stripLeadingDot (sp : List Char) : List Char :=
  if sp.head? = some '.' then sp.tail else sp

/-- `if sp[lsp-1] != '.' { sp += "." }` -/
def ensureTrailingDot (sp : List Char) : List Char :=
  if sp.getLast? ≠ some '.' then sp ++ ['.'] else sp

/-- One iteration of the search-entry loop: the value appended to
`dropSuffixes`, or `none` when the entry is skipped. -/
def normEntry (sp : List Char) : Option (List Char) :=
  if sp.length > 0 then
    if (stripLeadingDot sp).length > 0 then
      some ((ensureTrailingDot (stripLeadingDot sp)).map Char.toLower)
    else none
  else none

/-- The whole loop: the `dropSuffixes` entries produced from the resolver
file's search list. -/
def searchDropSuffixes (search : List (List Char)) : List (List Char) :=
  search.filterMap normEntry

/-- A list of characters ending in two consecutive dots. -/
def endsTwoDots (l : List Char) : Prop :=
  l.getLast? = some '.' ∧ l.dropLast.getLast? = some '.'

/-! ## OS DNS integrator: `Server.Worker` and `runOverridingServer` -/

inductive DnsErr where
  | resolveDNotConfigured
  | config (msg : String)
  | sys (msg : String)
  | cancelled
deriving DecidableEq, Repr

structure ResolveFile where
  nameservers : List String
  search : List (List Char)
deriving DecidableEq, Repr

/-- Externally observable side effects of `runOverridingServer`. -/
inductive OvEffect where
  | listenerCreated
  | poolCreated
  | poolClosed
  | natOp (c : NatCmd)
  | flushDNS
deriving DecidableEq, Repr

/-- Oracles for the calls `runOverridingServer` makes:
`ReadResolveFile("/etc/resolv.conf")`, `netip.ParseAddr`, the listener
bind (`dnsListeners` + `splitToUDPAddr`), `NewConnPool`, and the
supervised group (DNS server, optional container-local forwarder, and the
NAT-redirect goroutine that runs `routeDNS`). -/
structure OvEnv where
  rfResult : Except DnsErr ResolveFile
  validIP : String → Bool
  listenersResult : Except DnsErr UdpAddr
  poolResult : Except DnsErr (List UdpAddr)
  groupResult : Except DnsErr Unit
  groupEffects : List OvEffect

/-- `runOverridingServer`: when `s.LocalIP` is not valid, read the host
resolver file (propagating its error), take the first nameserver as the
upstream address when present (a parse failure is a configuration error),
and extend `dropSuffixes` by the normalized search entries; fail with a
configuration error when no upstream address could be determined; then
bind the listeners, create the connection pool, and run the supervised
group, closing the pool afterwards.  The group itself (which performs the
firewall changes only after the server started) is abstracted by the
`groupResult`/`groupEffects` oracles. -/
def runOverridingServer (env : OvEnv) (localIP : Option String)
    (drop0 : List (List Char)) : Except DnsErr Unit × List OvEffect :=
  let disc : Except DnsErr (Option String × List (List Char)) :=
    match localIP with
    | some ip => .ok (some ip, drop0)
    | none =>
      match env.rfResult with
      | .error e => .error e
      | .ok rf =>
        match rf.nameservers.head? with
        | some ns =>
          if env.validIP ns then
            .ok (some ns, drop0 ++ searchDropSuffixes rf.search)
          else
            .error (.config ("nameserver IP " ++ ns ++ " in /etc/resolv.conf is invalid"))
        | none => .ok (none, drop0 ++ searchDropSuffixes rf.search)
  match disc with
  | .error e => (.error e, [])
  | .ok (localIP1, _) =>
    if localIP1.isNone then
      (.error (.config "couldn't determine dns ip from /etc/resolv.conf"), [])
    else
      match env.listenersResult with
      | .error e => (.error e, [])
      | .ok _ =>
        match env.poolResult with
        | .error e => (.error e, [OvEffect.listenerCreated])
        | .ok _ =>
          (env.groupResult,
            [OvEffect.listenerCreated, OvEffect.poolCreated] ++ env.groupEffects
              ++ [OvEffect.poolClosed])

/-- `Server.Worker`: inside a container the overriding server runs
directly; otherwise `tryResolveD` is attempted, and only the
`errResolveDNotConfigured` sentinel — with the context still alive —
demotes the managed path to the overriding server.  The result is the
error `Worker` returns together with a flag telling whether the fallback
(`runOverridingServer` after the failed managed attempt) ran. -/
def Worker (inContainer : Bool) (tryResolveDResult : Option DnsErr)
    (ctxErr : Option DnsErr) (overridingResult : Option DnsErr) :
    Option DnsErr × Bool :=
  if inContainer then (overridingResult, false)
  else
    match tryResolveDResult with
    | none => (none, false)
    | some e =>
      if e = DnsErr.resolveDNotConfigured then
        if ctxErr = none then (overridingResult, true) else (none, false)
      else (some e, false)

/-- Concrete environment whose resolver file has search entries but no
nameserver line. -/
def envNoNS : OvEnv :=
  { rfResult := .ok ⟨[], [['c', 'o', 'm']]⟩, validIP := fun _ => true,
    listenersResult := .ok ⟨"127.0.0.1", 37123⟩, poolResult := .ok [],
    groupResult := .ok (), groupEffects := [] }

/-! ## Ingest and the mount-conflict check (`ingest.go`, `mount.go`)

`session.Ingest` with the gRPC calls (`EnsureAgent`, `TranslateEnvIPs`)
as oracles.  The decision part of `Ingest` is pure
(`sessionIngestCore`); the commit (`LoadOrCompute` inserting the ingest
plus `ingestTracker.initialStart`) happens only on the successful
not-yet-loaded path, which `sessionIngest` performs on the core's
result — the returned flag records whether the tracker was started. -/

structure Intercept where
  name : String
  clientMountPoint : String
  localMountPort : Int
deriving DecidableEq, Repr

inductive GrpcCode where
  | alreadyExists
  | notFound
  | unimplemented
  | internal
deriving DecidableEq, Repr

structure GrpcErr where
  code : GrpcCode
  msg : String
deriving DecidableEq, Repr

/-- The loop body of `ensureNoMountConflict`: first conflicting intercept
wins; the mount-point check precedes the mount-port check. -/
def mountConflictGo (mp : String) (port : Int) : List Intercept → Option GrpcErr
  | [] => none
  | ic :: rest =>
    if mp ≠ "" ∧ ic.clientMountPoint = mp then
      some ⟨GrpcCode.alreadyExists,
        "mount point " ++ mp ++ " already in use by intercept " ++ ic.name⟩
    else if port ≠ 0 ∧ ic.localMountPort = port then
      some ⟨GrpcCode.alreadyExists, "mount port already in use by intercept " ++ ic.name⟩
    else mountConflictGo mp port rest

/-- `session.ensureNoMountConflict`: no check at all when both the mount
point is empty and the mount port is zero. -/
def ensureNoMountConflict (ics : List Intercept) (mp : String) (port : Int) : Option GrpcErr :=
  if mp = "" ∧ port = 0 then none else mountConflictGo mp port ics

structure IngestRequest where
  workloadName : String
  containerName : String
  mountPoint : String
  localMountPort : Int
  localPorts : List String
deriving DecidableEq, Repr

structure SessionSt where
  currentAgents : List AgentInfo
  currentIngests : List (IngKey × Ingest)
  currentIntercepts : List Intercept
deriving DecidableEq, Repr

/-- Oracles for `EnsureAgent` and `TranslateEnvIPs`. -/
structure IngestEnv where
  ensureAgent : Except GrpcErr AgentInfo
  translateEnvErr : Option GrpcErr

def getCurrentAgent (s : SessionSt) (name : String) : Option AgentInfo :=
  s.currentAgents.find? (fun ai => decide (ai.name = name))

def validateAgentForIngest (ai : AgentInfo) : Option GrpcErr :=
  if ai.containers.isEmpty then
    some ⟨GrpcCode.unimplemented, "traffic-manager has no support for ingest"⟩
  else none

def getSingleContainerName (ai : AgentInfo) : Except GrpcErr String :=
  match validateAgentForIngest ai with
  | some e => .error e
  | none =>
    if ai.containers.length > 1 then
      .error ⟨GrpcCode.notFound,
        "workload " ++ ai.name ++ " has multiple containers. Please specify which one to use"⟩
    else .ok ((keysOf ai.containers).headD "")

/-- The decision flow of `session.Ingest`, in source order: resolve the
container name when an agent is known; return the existing ingest when the
key is already loaded; `ensureNoMountConflict`; `EnsureAgent` when no
agent was known; `validateAgentForIngest`; the second container
resolution; `translateContainerEnv`; finally either the already-loaded
ingest (`.ok none`) or the new ingest to insert (`.ok (some kv)`). -/
def sessionIngestCore (env : IngestEnv) (s : SessionSt) (rq : IngestRequest) :
    Except GrpcErr (Option (IngKey × Ingest)) :=
  let ik0 : IngKey := ⟨rq.workloadName, rq.containerName⟩
  let agent? := getCurrentAgent s ik0.workload
  let step1 : Except GrpcErr (IngKey × Bool) :=
    match agent? with
    | some ai =>
      if ik0.container = "" then
        match getSingleContainerName ai with
        | .error e => .error e
        | .ok cn =>
          .ok (⟨ik0.workload, cn⟩, (lookupKey ⟨ik0.workload, cn⟩ s.currentIngests).isSome)
      else .ok (ik0, (lookupKey ik0 s.currentIngests).isSome)
    | none => .ok (ik0, false)
  match step1 with
  | .error e => .error e
  | .ok (ik, loaded) =>
    if loaded then .ok none
    else
      match ensureNoMountConflict s.currentIntercepts rq.mountPoint rq.localMountPort with
      | some e => .error e
      | none =>
        match (match agent? with | some ai => Except.ok ai | none => env.ensureAgent) with
        | .error e => .error e
        | .ok ai =>
          match validateAgentForIngest ai with
          | some e => .error e
          | none =>
            match (if ik.container = "" then getSingleContainerName ai
                   else if (lookupKey ik.container ai.containers).isSome then .ok ik.container
                   else .error ⟨GrpcCode.internal,
                     "workload " ++ ik.workload ++ " has no container named " ++ ik.container⟩) with
            | .error e => .error e
            | .ok cn =>
              match env.translateEnvErr with
              | some e => .error e
              | none =>
                if (lookupKey (⟨ik.workload, cn⟩ : IngKey) s.currentIngests).isSome then
                  .ok none
                else
                  .ok (some (⟨ik.workload, cn⟩,
                    ⟨⟨ik.workload, cn⟩, ai, rq.mountPoint, rq.localMountPort, rq.localPorts⟩))

/-- `session.Ingest`: run the decision flow; on success insert the new
ingest (when one was built) and start it in the pod-access tracker.  The
boolean records whether `ingestTracker.initialStart` ran. -/
def sessionIngest (env : IngestEnv) (s : SessionSt) (rq : IngestRequest) :
    Except GrpcErr Unit × SessionSt × Bool :=
  match sessionIngestCore env s rq with
  | .error e => (.error e, s, false)
  | .ok none => (.ok (), s, false)
  | .ok (some kv) => (.ok (), { s with currentIngests := s.currentIngests ++ [kv] }, true)

def agW : AgentInfo := ⟨"w", "pod-1", "10.0.0.5", 0, 0, [("c", "/tele/mnt")]⟩

def igW : Ingest := ⟨⟨"w", "c"⟩, agW, "/m", 0, []⟩

/-- Session with an existing ingest for (w, c) and an intercept already
using mount point `/m`. -/
def sessW : SessionSt := ⟨[agW], [(⟨"w", "c"⟩, igW)], [⟨"other", "/m", 0⟩]⟩

def envW : IngestEnv := ⟨.error ⟨GrpcCode.internal, "unused"⟩, none⟩

/-- Request for (w, c) asking for mount point `/m`, which is already in
use by the intercept `other`. -/
def rqW : IngestRequest := ⟨"w", "c", "/m", 0, []⟩

/-- Session with the same intercept conflict but no existing ingest. -/
def sessV : SessionSt := ⟨[agW], [], [⟨"other", "/m", 0⟩]⟩

def errConflictV : GrpcErr :=
  ⟨GrpcCode.alreadyExists, "mount point /m already in use by intercept other"⟩

/-! ## Theorems -/

theorem mem_keysOf_iff_lookup_isSome {K V : Type} [DecidableEq K] (k : K) (l : List (K × V)) :
    k ∈ keysOf l ↔ (lookupKey k l).isSome := by
  induction l with
  | nil => simp [keysOf, lookupKey]
  | cons p rest ih =>
    obtain ⟨k', v⟩ := p
    simp only [keysOf, List.mem_cons, lookupKey]
    by_cases h : k' = k
    · subst h; simp
    · rw [if_neg h]
      constructor
      · rintro (h1 | h1)
        · exact absurd h1.symm h
        · exact ih.mp h1
      · intro h1
        exact Or.inr (ih.mpr h1)

theorem mem_keysOf_eraseKey {K V : Type} [DecidableEq K] (k k' : K) (l : List (K × V)) :
    k' ∈ keysOf (eraseKey k l) ↔ k' ∈ keysOf l ∧ k' ≠ k := by
  induction l with
  | nil => simp [eraseKey, keysOf]
  | cons p rest ih =>
    obtain ⟨k₀, v⟩ := p
    by_cases h : k₀ = k
    · subst h
      rw [eraseKey, if_pos rfl, ih]
      simp only [keysOf, List.mem_cons]
      constructor
      · rintro ⟨h1, h2⟩; exact ⟨Or.inr h1, h2⟩
      · rintro ⟨h1 | h1, h2⟩
        · exact absurd h1 h2
        · exact ⟨h1, h2⟩
    · rw [eraseKey, if_neg h]
      simp only [keysOf, List.mem_cons, ih]
      constructor
      · rintro (h1 | ⟨h1, h2⟩)
        · subst h1
          exact ⟨Or.inl rfl, fun hk => h hk⟩
        · exact ⟨Or.inr h1, h2⟩
      · rintro ⟨h1 | h1, h2⟩
        · exact Or.inl h1
        · exact Or.inr ⟨h1, h2⟩

theorem mem_insertKeySet {K : Type} [DecidableEq K] (k k' : K) (s : List K) :
    k' ∈ insertKeySet k s ↔ k' ∈ s ∨ k' = k := by
  unfold insertKeySet
  by_cases h : k ∈ s
  · simp only [if_pos h]
    constructor
    · exact Or.inl
    · rintro (h1 | rfl)
      · exact h1
      · exact h
  · simp [if_neg h]

/-! ### Basic facts about the tracker operations -/

theorem privateDelete_alivePods (t : Tracker) (fk : PodKey) :
    (t.privateDelete fk).1.alivePods = eraseKey fk t.alivePods := by
  cases h : lookupKey fk t.mountsReady <;> simp [Tracker.privateDelete, h]

theorem privateDelete_snapshot (t : Tracker) (fk : PodKey) :
    (t.privateDelete fk).1.snapshot = t.snapshot := by
  cases h : lookupKey fk t.mountsReady <;> simp [Tracker.privateDelete, h]

theorem privateDelete_nextChan (t : Tracker) (fk : PodKey) :
    (t.privateDelete fk).1.nextChan = t.nextChan := by
  cases h : lookupKey fk t.mountsReady <;> simp [Tracker.privateDelete, h]

theorem privateDelete_mountsReady_nil (t : Tracker) (fk : PodKey) (h : t.mountsReady = []) :
    (t.privateDelete fk).1.mountsReady = [] := by
  simp [Tracker.privateDelete, h, lookupKey]

theorem privateDelete_events (t : Tracker) (fk : PodKey) :
    TrkEvent.cancelled fk ∈ (t.privateDelete fk).2 ∧
      TrkEvent.waited fk ∈ (t.privateDelete fk).2 := by
  cases h : lookupKey fk t.mountsReady <;> simp [Tracker.privateDelete, h]

theorem getOrCreateMountsDone_alivePods (t : Tracker) (pa : PodAccess) :
    (t.getOrCreateMountsDone pa).1.alivePods = t.alivePods := by
  cases h : lookupKey pa.key t.mountsReady <;> simp [Tracker.getOrCreateMountsDone, h]

/-! ### Facts about the `cancelUnwanted` loop -/

theorem cug_snapshot (l : List (PodKey × PodSync)) (t : Tracker) :
    (cancelUnwantedGo l t).1.snapshot = t.snapshot := by
  induction l generalizing t with
  | nil => rfl
  | cons p rest ih =>
    obtain ⟨fk, lp⟩ := p
    by_cases h : fk ∈ t.snapshot
    · rw [cancelUnwantedGo, if_pos h]; exact ih t
    · rw [cancelUnwantedGo, if_neg h]
      show (cancelUnwantedGo rest (t.privateDelete fk).1).1.snapshot = t.snapshot
      rw [ih, privateDelete_snapshot]

theorem cug_nextChan (l : List (PodKey × PodSync)) (t : Tracker) :
    (cancelUnwantedGo l t).1.nextChan = t.nextChan := by
  induction l generalizing t with
  | nil => rfl
  | cons p rest ih =>
    obtain ⟨fk, lp⟩ := p
    by_cases h : fk ∈ t.snapshot
    · rw [cancelUnwantedGo, if_pos h]; exact ih t
    · rw [cancelUnwantedGo, if_neg h]
      show (cancelUnwantedGo rest (t.privateDelete fk).1).1.nextChan = t.nextChan
      rw [ih, privateDelete_nextChan]

theorem cug_mountsReady_nil (l : List (PodKey × PodSync)) (t : Tracker)
    (h0 : t.mountsReady = []) : (cancelUnwantedGo l t).1.mountsReady = [] := by
  induction l generalizing t with
  | nil => exact h0
  | cons p rest ih =>
    obtain ⟨fk, lp⟩ := p
    by_cases h : fk ∈ t.snapshot
    · rw [cancelUnwantedGo, if_pos h]; exact ih t h0
    · rw [cancelUnwantedGo, if_neg h]
      show (cancelUnwantedGo rest (t.privateDelete fk).1).1.mountsReady = []
      exact ih _ (privateDelete_mountsReady_nil t fk h0)

theorem cug_alive_sub (l : List (PodKey × PodSync)) (t : Tracker) (k : PodKey)
    (hmem : k ∈ keysOf (cancelUnwantedGo l t).1.alivePods) : k ∈ keysOf t.alivePods := by
  induction l generalizing t with
  | nil => exact hmem
  | cons p rest ih =>
    obtain ⟨fk, lp⟩ := p
    by_cases h : fk ∈ t.snapshot
    · rw [cancelUnwantedGo, if_pos h] at hmem; exact ih t hmem
    · rw [cancelUnwantedGo, if_neg h] at hmem
      have hmem' : k ∈ keysOf (cancelUnwantedGo rest (t.privateDelete fk).1).1.alivePods := hmem
      have h1 := ih _ hmem'
      rw [privateDelete_alivePods, mem_keysOf_eraseKey] at h1
      exact h1.1

theorem cug_keeps (l : List (PodKey × PodSync)) (t : Tracker) (k : PodKey)
    (hsnap : k ∈ t.snapshot) (halive : k ∈ keysOf t.alivePods) :
    k ∈ keysOf (cancelUnwantedGo l t).1.alivePods := by
  induction l generalizing t with
  | nil => exact halive
  | cons p rest ih =>
    obtain ⟨fk, lp⟩ := p
    by_cases h : fk ∈ t.snapshot
    · rw [cancelUnwantedGo, if_pos h]; exact ih t hsnap halive
    · rw [cancelUnwantedGo, if_neg h]
      show k ∈ keysOf (cancelUnwantedGo rest (t.privateDelete fk).1).1.alivePods
      have hne : k ≠ fk := fun he => h (he ▸ hsnap)
      refine ih _ ?_ ?_
      · rw [privateDelete_snapshot]; exact hsnap
      · rw [privateDelete_alivePods, mem_keysOf_eraseKey]; exact ⟨halive, hne⟩

theorem cug_removes (l : List (PodKey × PodSync)) (t : Tracker) (k : PodKey)
    (hns : k ∉ t.snapshot) (hmem : k ∈ keysOf l) :
    k ∉ keysOf (cancelUnwantedGo l t).1.alivePods := by
  induction l generalizing t with
  | nil => cases hmem
  | cons p rest ih =>
    obtain ⟨fk, lp⟩ := p
    by_cases h : fk ∈ t.snapshot
    · rw [cancelUnwantedGo, if_pos h]
      have hne : k ≠ fk := fun he => hns (he ▸ h)
      have hmem' : k ∈ keysOf rest := by
        rcases List.mem_cons.mp hmem with h1 | h1
        · exact absurd h1 hne
        · exact h1
      exact ih t hns hmem'
    · rw [cancelUnwantedGo, if_neg h]
      show k ∉ keysOf (cancelUnwantedGo rest (t.privateDelete fk).1).1.alivePods
      by_cases hk : k = fk
      · subst hk
        intro hcon
        have h1 := cug_alive_sub _ _ _ hcon
        rw [privateDelete_alivePods, mem_keysOf_eraseKey] at h1
        exact h1.2 rfl
      · have hmem' : k ∈ keysOf rest := by
          rcases List.mem_cons.mp hmem with h1 | h1
          · exact absurd h1 hk
          · exact h1
        refine ih _ ?_ hmem'
        rw [privateDelete_snapshot]; exact hns

theorem cug_events (l : List (PodKey × PodSync)) (t : Tracker) (k : PodKey)
    (hns : k ∉ t.snapshot) (hmem : k ∈ keysOf l) :
    TrkEvent.cancelled k ∈ (cancelUnwantedGo l t).2 ∧
      TrkEvent.waited k ∈ (cancelUnwantedGo l t).2 := by
  induction l generalizing t with
  | nil => cases hmem
  | cons p rest ih =>
    obtain ⟨fk, lp⟩ := p
    by_cases h : fk ∈ t.snapshot
    · rw [cancelUnwantedGo, if_pos h]
      have hne : k ≠ fk := fun he => hns (he ▸ h)
      have hmem' : k ∈ keysOf rest := by
        rcases List.mem_cons.mp hmem with h1 | h1
        · exact absurd h1 hne
        · exact h1
      exact ih t hns hmem'
    · rw [cancelUnwantedGo, if_neg h]
      show TrkEvent.cancelled k ∈ (t.privateDelete fk).2 ++ (cancelUnwantedGo rest (t.privateDelete fk).1).2 ∧
        TrkEvent.waited k ∈ (t.privateDelete fk).2 ++ (cancelUnwantedGo rest (t.privateDelete fk).1).2
      by_cases hk : k = fk
      · subst hk
        obtain ⟨h1, h2⟩ := privateDelete_events t k
        exact ⟨List.mem_append_left _ h1, List.mem_append_left _ h2⟩
      · have hmem' : k ∈ keysOf rest := by
          rcases List.mem_cons.mp hmem with h1 | h1
          · exact absurd h1 hk
          · exact h1
        have hns' : k ∉ (t.privateDelete fk).1.snapshot := by
          rw [privateDelete_snapshot]; exact hns
        obtain ⟨h1, h2⟩ := ih _ hns' hmem'
        exact ⟨List.mem_append_right _ h1, List.mem_append_right _ h2⟩

theorem cug_noop (l : List (PodKey × PodSync)) (t : Tracker)
    (h : ∀ k ∈ keysOf l, k ∈ t.snapshot) : cancelUnwantedGo l t = (t, []) := by
  induction l with
  | nil => rfl
  | cons p rest ih =>
    obtain ⟨fk, lp⟩ := p
    rw [cancelUnwantedGo, if_pos (h fk (List.mem_cons_self _ _))]
    exact ih fun k hk => h k (List.mem_cons_of_mem _ hk)

theorem keysOf_append {K V : Type} (l1 l2 : List (K × V)) :
    keysOf (l1 ++ l2) = keysOf l1 ++ keysOf l2 := by
  induction l1 with
  | nil => rfl
  | cons p rest ih => obtain ⟨k, v⟩ := p; simp [keysOf, ih]

theorem snapAfter_mono (pas : List PodAccess) (s : List PodKey) (k : PodKey)
    (h : k ∈ s) : k ∈ snapAfter pas s := by
  induction pas generalizing s with
  | nil => exact h
  | cons pa rest ih => exact ih _ ((mem_insertKeySet pa.key k s).mpr (Or.inl h))

theorem snapAfter_mem (pas : List PodAccess) (s : List PodKey) (pa : PodAccess)
    (h : pa ∈ pas) : pa.key ∈ snapAfter pas s := by
  induction pas generalizing s with
  | nil => cases h
  | cons pa0 rest ih =>
    rcases List.mem_cons.mp h with h1 | h1
    · subst h1
      exact snapAfter_mono rest _ _ ((mem_insertKeySet pa.key pa.key s).mpr (Or.inr rfl))
    · exact ih _ h1

theorem privateStart_snapshot (t : Tracker) (pa : PodAccess) :
    (t.privateStart pa).1.snapshot = t.snapshot := by
  unfold Tracker.privateStart
  split
  · rfl
  · split <;> rfl

theorem privateStart_mountsReady (t : Tracker) (pa : PodAccess) :
    (t.privateStart pa).1.mountsReady = t.mountsReady := by
  unfold Tracker.privateStart
  split
  · rfl
  · split <;> rfl

theorem privateStart_nextChan (t : Tracker) (pa : PodAccess) :
    (t.privateStart pa).1.nextChan = t.nextChan := by
  unfold Tracker.privateStart
  split
  · rfl
  · split <;> rfl

theorem privateStart_alive_mono (t : Tracker) (pa : PodAccess) (k : PodKey)
    (h : k ∈ keysOf t.alivePods) : k ∈ keysOf (t.privateStart pa).1.alivePods := by
  unfold Tracker.privateStart
  split
  · exact h
  · split
    · exact h
    · show k ∈ keysOf (t.alivePods ++ [(pa.key, ⟨pa.workload⟩)])
      rw [keysOf_append]
      exact List.mem_append_left _ h

theorem privateStart_active_alive (t : Tracker) (pa : PodAccess)
    (hb : (pa.shouldForward || pa.shouldMount) = true) :
    pa.key ∈ keysOf (t.privateStart pa).1.alivePods := by
  unfold Tracker.privateStart
  rw [hb]
  simp only [Bool.not_true, Bool.false_eq_true, if_false]
  split
  · rename_i hs
    exact (mem_keysOf_iff_lookup_isSome _ _).mpr hs
  · show pa.key ∈ keysOf (t.alivePods ++ [(pa.key, ⟨pa.workload⟩)])
    rw [keysOf_append]
    exact List.mem_append_right _ (List.mem_cons_self _ _)

theorem privateStart_noop (t : Tracker) (pa : PodAccess)
    (ha : (pa.shouldForward || pa.shouldMount) = true → pa.key ∈ keysOf t.alivePods) :
    t.privateStart pa = (t, []) := by
  unfold Tracker.privateStart
  cases hb : (pa.shouldForward || pa.shouldMount) with
  | false => simp [hb]
  | true =>
    have h1 : (lookupKey pa.key t.alivePods).isSome :=
      (mem_keysOf_iff_lookup_isSome _ _).mp (ha hb)
    simp [hb, h1]

theorem start_snapshot (t : Tracker) (pa : PodAccess) :
    (t.start pa).1.snapshot = insertKeySet pa.key t.snapshot := by
  simp only [Tracker.start]
  split <;> simp [privateStart_snapshot]

theorem start_nextChan (t : Tracker) (pa : PodAccess) :
    (t.start pa).1.nextChan = t.nextChan := by
  simp only [Tracker.start]
  split <;> simp [privateStart_nextChan]

theorem start_mountsReady_nil (t : Tracker) (pa : PodAccess) (hm : t.mountsReady = []) :
    (t.start pa).1.mountsReady = [] := by
  simp only [Tracker.start]
  have h1 : (Tracker.privateStart { t with snapshot := insertKeySet pa.key t.snapshot } pa).1.mountsReady = [] := by
    rw [privateStart_mountsReady]; exact hm
  split <;> simp [h1, eraseKey]

theorem start_alive_mono (t : Tracker) (pa : PodAccess) (k : PodKey)
    (h : k ∈ keysOf t.alivePods) : k ∈ keysOf (t.start pa).1.alivePods := by
  simp only [Tracker.start]
  have h1 : k ∈ keysOf (Tracker.privateStart { t with snapshot := insertKeySet pa.key t.snapshot } pa).1.alivePods :=
    privateStart_alive_mono _ pa k h
  split <;> simpa using h1

theorem start_active_alive (t : Tracker) (pa : PodAccess)
    (hb : (pa.shouldForward || pa.shouldMount) = true) :
    pa.key ∈ keysOf (t.start pa).1.alivePods := by
  simp only [Tracker.start]
  have h1 : pa.key ∈ keysOf (Tracker.privateStart { t with snapshot := insertKeySet pa.key t.snapshot } pa).1.alivePods :=
    privateStart_active_alive _ pa hb
  split <;> simpa using h1

theorem start_noop (t : Tracker) (pa : PodAccess) (hm : t.mountsReady = [])
    (ha : (pa.shouldForward || pa.shouldMount) = true → pa.key ∈ keysOf t.alivePods) :
    t.start pa = ({ t with snapshot := insertKeySet pa.key t.snapshot }, []) := by
  simp only [Tracker.start]
  rw [privateStart_noop { t with snapshot := insertKeySet pa.key t.snapshot } pa ha]
  simp [hm, lookupKey]

theorem tracker_ext {a b : Tracker} (h1 : a.alivePods = b.alivePods)
    (h2 : a.snapshot = b.snapshot) (h3 : a.mountsReady = b.mountsReady)
    (h4 : a.nextChan = b.nextChan) : a = b := by
  cases a
  cases b
  simp only [Tracker.mk.injEq]
  exact ⟨h1, h2, h3, h4⟩

theorem sg_snapshot (pas : List PodAccess) (t : Tracker) :
    (startsGo pas t).1.snapshot = snapAfter pas t.snapshot := by
  induction pas generalizing t with
  | nil => rfl
  | cons pa rest ih =>
    show (startsGo rest (t.start pa).1).1.snapshot = snapAfter rest (insertKeySet pa.key t.snapshot)
    rw [ih, start_snapshot]

theorem sg_nextChan (pas : List PodAccess) (t : Tracker) :
    (startsGo pas t).1.nextChan = t.nextChan := by
  induction pas generalizing t with
  | nil => rfl
  | cons pa rest ih =>
    show (startsGo rest (t.start pa).1).1.nextChan = t.nextChan
    rw [ih, start_nextChan]

theorem sg_mountsReady_nil (pas : List PodAccess) (t : Tracker) (hm : t.mountsReady = []) :
    (startsGo pas t).1.mountsReady = [] := by
  induction pas generalizing t with
  | nil => exact hm
  | cons pa rest ih =>
    show (startsGo rest (t.start pa).1).1.mountsReady = []
    exact ih _ (start_mountsReady_nil t pa hm)

theorem sg_alive_mono (pas : List PodAccess) (t : Tracker) (k : PodKey)
    (h : k ∈ keysOf t.alivePods) : k ∈ keysOf (startsGo pas t).1.alivePods := by
  induction pas generalizing t with
  | nil => exact h
  | cons pa rest ih =>
    show k ∈ keysOf (startsGo rest (t.start pa).1).1.alivePods
    exact ih _ (start_alive_mono t pa k h)

theorem sg_active_alive (pas : List PodAccess) (t : Tracker) (pa : PodAccess)
    (hpa : pa ∈ pas) (hb : (pa.shouldForward || pa.shouldMount) = true) :
    pa.key ∈ keysOf (startsGo pas t).1.alivePods := by
  induction pas generalizing t with
  | nil => cases hpa
  | cons pa0 rest ih =>
    show pa.key ∈ keysOf (startsGo rest (t.start pa0).1).1.alivePods
    rcases List.mem_cons.mp hpa with h1 | h1
    · subst h1
      exact sg_alive_mono rest _ _ (start_active_alive t pa hb)
    · exact ih _ h1

theorem sg_noop (pas : List PodAccess) (t : Tracker) (hm : t.mountsReady = [])
    (ha : ∀ pa ∈ pas, (pa.shouldForward || pa.shouldMount) = true → pa.key ∈ keysOf t.alivePods) :
    startsGo pas t = ({ t with snapshot := snapAfter pas t.snapshot }, []) := by
  induction pas generalizing t with
  | nil => rfl
  | cons pa rest ih =>
    have hstep : t.start pa = ({ t with snapshot := insertKeySet pa.key t.snapshot }, []) :=
      start_noop t pa hm (ha pa (List.mem_cons_self _ _))
    show ((startsGo rest (t.start pa).1).1,
        (t.start pa).2 ++ (startsGo rest (t.start pa).1).2)
      = ({ t with snapshot := snapAfter (pa :: rest) t.snapshot }, [])
    rw [hstep]
    dsimp only
    have hrest : startsGo rest ({ t with snapshot := insertKeySet pa.key t.snapshot } : Tracker)
        = ({ t with snapshot := snapAfter rest (insertKeySet pa.key t.snapshot) }, []) :=
      ih { t with snapshot := insertKeySet pa.key t.snapshot } hm
        (fun pa' hpa' hb' => ha pa' (List.mem_cons_of_mem _ hpa') hb')
    rw [hrest]
    rfl

theorem cu_snapshot (t : Tracker) : (t.cancelUnwanted).1.snapshot = t.snapshot :=
  cug_snapshot _ _

theorem cu_mountsReady_nil (t : Tracker) (h : t.mountsReady = []) :
    (t.cancelUnwanted).1.mountsReady = [] :=
  cug_mountsReady_nil _ _ h

theorem cu_keeps (t : Tracker) (k : PodKey) (hs : k ∈ t.snapshot)
    (ha : k ∈ keysOf t.alivePods) : k ∈ keysOf (t.cancelUnwanted).1.alivePods :=
  cug_keeps _ _ _ hs ha

theorem cu_alive_in_snapshot (t : Tracker) (k : PodKey)
    (h : k ∈ keysOf (t.cancelUnwanted).1.alivePods) : k ∈ t.snapshot := by
  by_contra hns
  exact cug_removes t.alivePods t k hns (cug_alive_sub t.alivePods t k h) h

/-- A round run on a tracker state that is already stable for `pas`
(no stale mounts-ready channels, snapshot already the one `pas` builds,
everything alive is wanted, everything active is alive) is the identity
and produces no events. -/
theorem round_stable (pas : List PodAccess) (s : Tracker)
    (hm : s.mountsReady = [])
    (hsnap : s.snapshot = snapAfter pas [])
    (halive : ∀ k ∈ keysOf s.alivePods, k ∈ snapAfter pas [])
    (hactive : ∀ pa ∈ pas, (pa.shouldForward || pa.shouldMount) = true →
      pa.key ∈ keysOf s.alivePods) :
    s.round pas = (s, []) := by
  have h1 : startsGo pas (s.initSnapshot).1
      = (({ s with snapshot := snapAfter pas [], mountsReady := [] } : Tracker), []) :=
    sg_noop pas (s.initSnapshot).1 rfl (fun pa hpa hb => hactive pa hpa hb)
  have h2 : (({ s with snapshot := snapAfter pas [], mountsReady := [] } : Tracker)).cancelUnwanted
      = (({ s with snapshot := snapAfter pas [], mountsReady := [] } : Tracker), []) :=
    cug_noop _ _ (fun k hk => halive k hk)
  have hs : ({ s with snapshot := snapAfter pas [], mountsReady := [] } : Tracker) = s :=
    tracker_ext rfl hsnap.symm hm.symm rfl
  show (((startsGo pas (s.initSnapshot).1).1.cancelUnwanted).1,
      (startsGo pas (s.initSnapshot).1).2 ++
        ((startsGo pas (s.initSnapshot).1).1.cancelUnwanted).2) = (s, [])
  rw [h1]
  dsimp only
  rw [h2]
  dsimp only
  rw [hs]
  rfl

/-- **C1** (evidence of the code bug).  Running `getOrCreateMountsDone`
followed by `start` for the same key on a fresh tracker produces exactly
one close of the mounts-ready channel, and that close is performed with
the tracker's lock *not* held: the deferred block in `start` that removes
and closes the channel executes when `start` returns, i.e. after the
explicit `lpf.Unlock()` at the end of the function body.  The claim (and
the spec) state that closing and removing happen together under the
tracker's lock; the code performs them after the lock is released. -/
theorem start_closes_channel_after_unlock :
    (newPodAccessTracker.run [TrkOp.getOrCreateMountsDone paPlain, TrkOp.start paPlain]).2
      = [TrkEvent.chanClosed kPlain 0 false] := by decide

/-- **C3.** After `cancelUnwanted` returns: the key set of `alivePods` is
a subset of the snapshot set built since the last `initSnapshot`; every key
that was alive but not in the snapshot has been removed, its cancellation
function called and its worker wait-group waited for (the wait returns only
once the counter reached zero) before `cancelUnwanted` returned; and no
tracker operation other than `start` ever adds a key to `alivePods`. -/
theorem cancelUnwanted_reconciles (t : Tracker) (fk : PodKey) :
    (fk ∈ keysOf (t.cancelUnwanted).1.alivePods → fk ∈ (t.cancelUnwanted).1.snapshot) ∧
      (fk ∈ keysOf t.alivePods → fk ∉ t.snapshot →
        fk ∉ keysOf (t.cancelUnwanted).1.alivePods ∧
          TrkEvent.cancelled fk ∈ (t.cancelUnwanted).2 ∧
          TrkEvent.waited fk ∈ (t.cancelUnwanted).2) ∧
      (∀ op : TrkOp, (∀ pa : PodAccess, op ≠ TrkOp.start pa) →
        fk ∈ keysOf (t.applyOp op).1.alivePods → fk ∈ keysOf t.alivePods) := by
  refine ⟨?_, ?_, ?_⟩
  · intro hmem
    show fk ∈ (cancelUnwantedGo t.alivePods t).1.snapshot
    rw [cug_snapshot]
    by_contra hns
    exact cug_removes t.alivePods t fk hns (cug_alive_sub t.alivePods t fk hmem) hmem
  · intro halive hns
    exact ⟨cug_removes t.alivePods t fk hns halive,
      (cug_events t.alivePods t fk hns halive).1,
      (cug_events t.alivePods t fk hns halive).2⟩
  · intro op hop hmem
    cases op with
    | initSnapshot => exact hmem
    | getOrCreateMountsDone pa =>
        rw [Tracker.applyOp, getOrCreateMountsDone_alivePods] at hmem
        exact hmem
    | start pa => exact absurd rfl (hop pa)
    | cancelUnwanted => exact cug_alive_sub t.alivePods t fk hmem

/-- **C8.** Two consecutive reconciliation rounds (`initSnapshot`, then
`start` for every pod access of the same agent set, then `cancelUnwanted`)
with the same list of pod accesses: the second round leaves the tracker
exactly as the first round left it (in particular `alivePods` is
identical) and produces no events at all — in particular zero new mount
workers and zero new port-forward workers, because `start` on an
already-live key (or on a pod access needing neither mounts nor forwards)
does nothing beyond re-affirming the key in the snapshot set. -/
theorem round_twice_identical (t : Tracker) (pas : List PodAccess) :
    (t.round pas).1.round pas = ((t.round pas).1, []) := by
  apply round_stable
  · exact cu_mountsReady_nil _ (sg_mountsReady_nil pas (t.initSnapshot).1 rfl)
  · show ((startsGo pas (t.initSnapshot).1).1.cancelUnwanted).1.snapshot = snapAfter pas []
    rw [cu_snapshot, sg_snapshot]
    rfl
  · intro k hk
    have h1 := cu_alive_in_snapshot ((startsGo pas (t.initSnapshot).1).1) k hk
    rw [sg_snapshot] at h1
    exact h1
  · intro pa hpa hb
    refine cu_keeps ((startsGo pas (t.initSnapshot).1).1) _ ?_ (sg_active_alive pas _ pa hpa hb)
    rw [sg_snapshot]
    exact snapAfter_mem pas _ pa hpa

theorem handleIngests_nil_infos (resolveIP : String → String) (igs : List Ingest)
    (t : Tracker) : handleIngests [] resolveIP igs t = (t, []) := by
  induction igs with
  | nil => rfl
  | cons ig rest ih =>
    show handleIngests [] resolveIP rest t = (t, [])
    exact ih

theorem eq_nil_of_keysOf_empty {K V : Type} (l : List (K × V))
    (h : ∀ k, k ∈ keysOf l → False) : l = [] := by
  cases l with
  | nil => rfl
  | cons p rest => exact absurd (List.mem_cons_self p.1 (keysOf rest)) (h p.1)

/-- **C10.** When the agent-watch stream returns a receive error, the
session reconciles against an empty agent snapshot before returning:
`handleAgentSnapshot(ctx, nil)` runs `initSnapshot` with no agents (no
ingest is started because no agent matches) and then `cancelUnwanted`, so
afterwards no pod access is alive and every previously live key was
cancelled and waited for — and this happens whether the termination is
normal (context done or `io.EOF`, result nil) or an error (result is the
wrapped receive error). -/
theorem watch_recv_error_reconciles_empty (ctxDone : Bool) (e : RecvErr)
    (resolveIP : String → String) (igs : List Ingest) (t : Tracker) (fk : PodKey) :
    (watchAgentsOnRecvError ctxDone e resolveIP igs t).2.1.alivePods = [] ∧
      (fk ∈ keysOf t.alivePods →
        TrkEvent.cancelled fk ∈ (watchAgentsOnRecvError ctxDone e resolveIP igs t).2.2 ∧
          TrkEvent.waited fk ∈ (watchAgentsOnRecvError ctxDone e resolveIP igs t).2.2) ∧
      ((ctxDone = true ∨ e = RecvErr.eof) →
        (watchAgentsOnRecvError ctxDone e resolveIP igs t).1 = none) ∧
      (∀ msg : String, ctxDone = false → e = RecvErr.other msg →
        (watchAgentsOnRecvError ctxDone e resolveIP igs t).1
          = some ("manager.WatchAgents recv: " ++ msg)) := by
  have hgo : handleIngests [] resolveIP igs (t.initSnapshot).1 = ((t.initSnapshot).1, []) :=
    handleIngests_nil_infos resolveIP igs (t.initSnapshot).1
  have htrk : (watchAgentsOnRecvError ctxDone e resolveIP igs t).2.1
      = ((t.initSnapshot).1.cancelUnwanted).1 := by
    show ((handleIngests [] resolveIP igs (t.initSnapshot).1).1.cancelUnwanted).1
      = ((t.initSnapshot).1.cancelUnwanted).1
    rw [hgo]
  have hevs : (watchAgentsOnRecvError ctxDone e resolveIP igs t).2.2
      = ((t.initSnapshot).1.cancelUnwanted).2 := by
    show (handleIngests [] resolveIP igs (t.initSnapshot).1).2 ++
        ((handleIngests [] resolveIP igs (t.initSnapshot).1).1.cancelUnwanted).2
      = ((t.initSnapshot).1.cancelUnwanted).2
    rw [hgo]
    rfl
  refine ⟨?_, ?_, ?_, ?_⟩
  · rw [htrk]
    refine eq_nil_of_keysOf_empty _ (fun k hk => ?_)
    have h1 := cu_alive_in_snapshot (t.initSnapshot).1 k hk
    cases h1
  · intro hfk
    rw [hevs]
    exact cug_events (t.initSnapshot).1.alivePods (t.initSnapshot).1 fk
      (fun h => by cases h) hfk
  · intro h1
    rcases h1 with h1 | h1
    · show (if ctxDone = true then none else _) = none
      rw [if_pos h1]
    · subst h1
      cases ctxDone <;> rfl
  · intro msg h1 h2
    subst h1
    subst h2
    rfl

/-- Witness for **C10**: a concrete recv error on a session with one live
pod key cancels it and reports normal termination on `io.EOF`. -/
theorem watch_recv_error_reconciles_empty_witness :
    kPlain ∈ keysOf (Tracker.mk [(kPlain, ⟨"w"⟩)] [] [] 0).alivePods ∧
      TrkEvent.cancelled kPlain ∈
        (watchAgentsOnRecvError false RecvErr.eof id [] (Tracker.mk [(kPlain, ⟨"w"⟩)] [] [] 0)).2.2 ∧
      (watchAgentsOnRecvError false RecvErr.eof id [] (Tracker.mk [(kPlain, ⟨"w"⟩)] [] [] 0)).1 = none :=
  ⟨by decide,
    ((watch_recv_error_reconciles_empty false RecvErr.eof id []
      (Tracker.mk [(kPlain, ⟨"w"⟩)] [] [] 0) kPlain).2.1 (by decide)).1,
    (watch_recv_error_reconciles_empty false RecvErr.eof id []
      (Tracker.mk [(kPlain, ⟨"w"⟩)] [] [] 0) kPlain).2.2.1 (Or.inr rfl)⟩

/-- Witness for **C3**: on `tWitness` the live key `kPlain` is removed,
cancelled and waited for. -/
theorem cancelUnwanted_reconciles_witness :
    kPlain ∉ keysOf (tWitness.cancelUnwanted).1.alivePods ∧
      TrkEvent.cancelled kPlain ∈ (tWitness.cancelUnwanted).2 ∧
      TrkEvent.waited kPlain ∈ (tWitness.cancelUnwanted).2 :=
  (cancelUnwanted_reconciles tWitness kPlain).2.1 (by decide) (by decide)

/-! ### Facts about the firewall model -/

theorem countTp_delFirst (l : List String) (h : countTp l ≤ 1) :
    countTp (delFirst tpDNSChain l) = 0 := by
  induction l with
  | nil => rfl
  | cons x rest ih =>
    by_cases hx : x = tpDNSChain
    · rw [delFirst, if_pos hx]
      rw [countTp, if_pos hx] at h
      omega
    · rw [delFirst, if_neg hx]
      rw [countTp, if_neg hx] at h
      have h2 := ih (by omega)
      rw [countTp, if_neg hx, h2]

theorem notMem_of_countTp_zero (l : List String) (h : countTp l = 0) : tpDNSChain ∉ l := by
  induction l with
  | nil => simp
  | cons x rest ih =>
    rw [countTp] at h
    by_cases hx : x = tpDNSChain
    · rw [if_pos hx] at h; omega
    · rw [if_neg hx] at h
      simp only [List.mem_cons]
      rintro (h1 | h1)
      · exact hx h1.symm
      · exact ih (by omega) h1

theorem teardown_clears (st : NatState) (h : natWF st) :
    (NatRun.teardown ⟨st, 0, []⟩).st.tpChain = none ∧
      countTp (NatRun.teardown ⟨st, 0, []⟩).st.output = 0 := by
  have hcnt : countTp (delFirst tpDNSChain st.output) = 0 := countTp_delFirst _ h.1
  have hmem : tpDNSChain ∉ delFirst tpDNSChain st.output := notMem_of_countTp_zero _ hcnt
  cases hc : st.tpChain with
  | none =>
    constructor
    · simp [NatRun.teardown, NatState.execTeardownCmd, hc]
    · simp [NatRun.teardown, NatState.execTeardownCmd, hc, hcnt]
  | some rs =>
    constructor
    · simp [NatRun.teardown, NatState.execTeardownCmd, hc, hmem]
    · simp [NatRun.teardown, NatState.execTeardownCmd, hc, hmem, hcnt]

theorem mut_trace (sched : Nat → Bool) (r : NatRun) (c : NatCmd) :
    (r.mut sched c).1.trace = r.trace ++ [c] := by
  unfold NatRun.mut
  cases he : (if sched r.ctr then r.st.execMutCmd c else none) <;> simp [he]

theorem mut_success_st (sched : Nat → Bool) (r : NatRun) (c : NatCmd)
    (h : (r.mut sched c).2 = true) :
    r.st.execMutCmd c = some (r.mut sched c).1.st := by
  unfold NatRun.mut at h ⊢
  cases he : (if sched r.ctr then r.st.execMutCmd c else none) with
  | none => rw [he] at h; simp at h
  | some st' =>
    show r.st.execMutCmd c = some st'
    cases hs : sched r.ctr
    · rw [hs] at he; simp at he
    · rw [hs] at he; simpa using he

theorem mut_fail_st (sched : Nat → Bool) (r : NatRun) (c : NatCmd)
    (h : (r.mut sched c).2 = false) :
    (r.mut sched c).1.st = r.st := by
  unfold NatRun.mut at h ⊢
  cases he : (if sched r.ctr then r.st.execMutCmd c else none) with
  | none => rfl
  | some st' => rw [he] at h; simp at h

theorem execMutCmd_output (st st' : NatState) (c : NatCmd) (hc : c ≠ NatCmd.insertOutput)
    (h : st.execMutCmd c = some st') : st'.output = st.output := by
  cases c with
  | newChain =>
    unfold NatState.execMutCmd at h
    by_cases hs : st.tpChain.isSome
    · rw [if_pos hs] at h; cases h
    · rw [if_neg hs] at h
      cases h
      rfl
  | appendRet a =>
    unfold NatState.execMutCmd at h
    cases hch : st.tpChain with
    | some rs => rw [hch] at h; cases h; rfl
    | none => rw [hch] at h; cases h
  | appendDnat d toD =>
    unfold NatState.execMutCmd at h
    cases hch : st.tpChain with
    | some rs => rw [hch] at h; cases h; rfl
    | none => rw [hch] at h; cases h
  | insertOutput => exact absurd rfl hc
  | delOutputJump => cases h
  | flushChain => cases h
  | delChain => cases h

theorem natStep_false (sched : Nat → Bool) (c : NatCmd) (pr : NatRun × Bool)
    (h : pr.2 = false) : natStep sched c pr = pr := by
  simp [natStep, h]

theorem natStep_trace (sched : Nat → Bool) (c : NatCmd) (pr : NatRun × Bool) :
    ∃ tl, (natStep sched c pr).1.trace = pr.1.trace ++ tl := by
  cases hb : pr.2
  · exact ⟨[], by simp [natStep, hb]⟩
  · exact ⟨[c], by simp [natStep, hb, mut_trace]⟩

theorem natStep_success (sched : Nat → Bool) (c : NatCmd) (pr : NatRun × Bool)
    (h : (natStep sched c pr).2 = true) :
    pr.2 = true ∧ pr.1.st.execMutCmd c = some (natStep sched c pr).1.st := by
  cases hb : pr.2
  · rw [natStep_false sched c pr hb] at h
    rw [hb] at h
    cases h
  · have he : natStep sched c pr = pr.1.mut sched c := by simp [natStep, hb]
    rw [he] at h ⊢
    exact ⟨rfl, mut_success_st sched pr.1 c h⟩

theorem natStep_fail_output (sched : Nat → Bool) (c : NatCmd) (pr : NatRun × Bool)
    (h : (natStep sched c pr).2 = false) :
    (natStep sched c pr).1.st.output = pr.1.st.output := by
  cases hb : pr.2
  · rw [natStep_false sched c pr hb]
  · have he : natStep sched c pr = pr.1.mut sched c := by simp [natStep, hb]
    rw [he] at h ⊢
    rw [mut_fail_st sched pr.1 c h]

theorem natStep_output (sched : Nat → Bool) (c : NatCmd) (pr : NatRun × Bool)
    (hc : c ≠ NatCmd.insertOutput) :
    (natStep sched c pr).1.st.output = pr.1.st.output := by
  cases hb : pr.2
  · rw [natStep_false sched c pr hb]
  · have he : natStep sched c pr = pr.1.mut sched c := by simp [natStep, hb]
    rw [he]
    cases hm : (pr.1.mut sched c).2
    · rw [mut_fail_st sched pr.1 c hm]
    · exact execMutCmd_output pr.1.st ((pr.1.mut sched c).1.st) c hc
        (mut_success_st sched pr.1 c hm)

theorem natSteps_trace (sched : Nat → Bool) (cs : List NatCmd) (pr : NatRun × Bool) :
    ∃ tl, (natSteps sched cs pr).1.trace = pr.1.trace ++ tl := by
  induction cs generalizing pr with
  | nil => exact ⟨[], by simp [natSteps]⟩
  | cons c rest ih =>
    obtain ⟨t1, h1⟩ := natStep_trace sched c pr
    obtain ⟨t2, h2⟩ := ih (natStep sched c pr)
    refine ⟨t1 ++ t2, ?_⟩
    show (natSteps sched rest (natStep sched c pr)).1.trace = pr.1.trace ++ (t1 ++ t2)
    rw [h2, h1, List.append_assoc]

theorem natSteps_output (sched : Nat → Bool) (cs : List NatCmd) (pr : NatRun × Bool)
    (hc : ∀ c ∈ cs, c ≠ NatCmd.insertOutput) :
    (natSteps sched cs pr).1.st.output = pr.1.st.output := by
  induction cs generalizing pr with
  | nil => rfl
  | cons c rest ih =>
    show (natSteps sched rest (natStep sched c pr)).1.st.output = pr.1.st.output
    rw [ih (natStep sched c pr) (fun c' hc' => hc c' (List.mem_cons_of_mem _ hc')),
      natStep_output sched c pr (hc c (List.mem_cons_self _ _))]

theorem natSteps_rets_success (sched : Nat → Bool) (addrs : List UdpAddr) (pr : NatRun × Bool)
    (h : (natSteps sched (addrs.map NatCmd.appendRet) pr).2 = true) :
    pr.2 = true ∧ ∀ rs : List NatRule, pr.1.st.tpChain = some rs →
      (natSteps sched (addrs.map NatCmd.appendRet) pr).1.st.tpChain
        = some (rs ++ addrs.map (fun a => NatRule.ret a.ip a.port)) := by
  induction addrs generalizing pr with
  | nil => exact ⟨h, fun rs hrs => by simpa using hrs⟩
  | cons a rest ih =>
    have h' : (natSteps sched (rest.map NatCmd.appendRet)
        (natStep sched (NatCmd.appendRet a) pr)).2 = true := h
    obtain ⟨hstep2, hchain⟩ := ih (natStep sched (NatCmd.appendRet a) pr) h'
    obtain ⟨hpr2, hexec⟩ := natStep_success sched (NatCmd.appendRet a) pr hstep2
    refine ⟨hpr2, fun rs hrs => ?_⟩
    have h2 : pr.1.st.execMutCmd (NatCmd.appendRet a)
        = some { pr.1.st with tpChain := some (rs ++ [NatRule.ret a.ip a.port]) } := by
      unfold NatState.execMutCmd
      rw [hrs]
    rw [hexec] at h2
    have h3 := Option.some.inj h2
    have hmid : (natStep sched (NatCmd.appendRet a) pr).1.st.tpChain
        = some (rs ++ [NatRule.ret a.ip a.port]) := by
      rw [h3]
    have h4 := hchain (rs ++ [NatRule.ret a.ip a.port]) hmid
    rw [List.append_assoc] at h4
    exact h4

/-- **C2** (counterexample).  Claim as stated is false: when the DNAT
append fails, `routeDNS` returns an error while the `TELEPRESENCE_DNS`
chain exists with only the RETURN rule — the chain is observable in a
partially-populated state, missing its DNAT rule. -/
theorem routeDNS_partial_chain_observable :
    (routeDNS schedFailDnat "10.96.0.10" "127.0.0.1:37123" [⟨"192.168.0.2", 40001⟩]
        ⟨none, []⟩).2 = false ∧
      (routeDNS schedFailDnat "10.96.0.10" "127.0.0.1:37123" [⟨"192.168.0.2", 40001⟩]
        ⟨none, []⟩).1.st.tpChain = some [NatRule.ret "192.168.0.2" 40001] ∧
      NatRule.dnat "10.96.0.10/32" 53 "127.0.0.1:37123"
        ∉ [NatRule.ret "192.168.0.2" 40001] := by decide

/-- **C2** (amended).  Every execution of `routeDNS` begins with the full
teardown of any previous chain (`-D OUTPUT -j`, `-F`, `-X`); and from any
well-formed firewall state, an execution in which some iptables step fails
leaves the `TELEPRESENCE_DNS` chain unreferenced from the OUTPUT hook
(zero jumps), because the OUTPUT jump is only inserted as the final step
after every rule succeeded.  (A failed step may however leave an
unreferenced, partially-populated chain; the next installation removes it
in its initial teardown.) -/
theorem routeDNS_failed_install (sched : Nat → Bool) (dnsIP toAddr : String)
    (addrs : List UdpAddr) (st : NatState) :
    (routeDNS sched dnsIP toAddr addrs st).1.trace.take 3
        = [NatCmd.delOutputJump, NatCmd.flushChain, NatCmd.delChain] ∧
      (natWF st → (routeDNS sched dnsIP toAddr addrs st).2 = false →
        countTp (routeDNS sched dnsIP toAddr addrs st).1.st.output = 0) := by
  constructor
  · obtain ⟨t1, h1⟩ := natStep_trace sched NatCmd.newChain (routeP0 st)
    obtain ⟨t2, h2⟩ := natSteps_trace sched (addrs.map NatCmd.appendRet) (routeP1 sched st)
    obtain ⟨t3, h3⟩ := natStep_trace sched (NatCmd.appendDnat (dnsIP ++ "/32") toAddr)
      (routeP2 sched addrs st)
    obtain ⟨t4, h4⟩ := natStep_trace sched NatCmd.insertOutput
      (routeP3 sched dnsIP toAddr addrs st)
    have g1 : (routeP1 sched st).1.trace = (routeP0 st).1.trace ++ t1 := h1
    have g2 : (routeP2 sched addrs st).1.trace = (routeP1 sched st).1.trace ++ t2 := h2
    have g3 : (routeP3 sched dnsIP toAddr addrs st).1.trace
        = (routeP2 sched addrs st).1.trace ++ t3 := h3
    have g4 : (routeDNS sched dnsIP toAddr addrs st).1.trace
        = (routeP3 sched dnsIP toAddr addrs st).1.trace ++ t4 := h4
    have g0 : (routeP0 st).1.trace
        = [NatCmd.delOutputJump, NatCmd.flushChain, NatCmd.delChain] := rfl
    rw [g4, g3, g2, g1, g0]
    simp only [List.append_assoc]
    rfl
  · intro hwf hfail
    have g4 : (routeDNS sched dnsIP toAddr addrs st).1.st.output
        = (routeP3 sched dnsIP toAddr addrs st).1.st.output :=
      natStep_fail_output sched NatCmd.insertOutput (routeP3 sched dnsIP toAddr addrs st) hfail
    have g3 : (routeP3 sched dnsIP toAddr addrs st).1.st.output
        = (routeP2 sched addrs st).1.st.output :=
      natStep_output sched (NatCmd.appendDnat (dnsIP ++ "/32") toAddr)
        (routeP2 sched addrs st) (by simp)
    have g2 : (routeP2 sched addrs st).1.st.output = (routeP1 sched st).1.st.output :=
      natSteps_output sched (addrs.map NatCmd.appendRet) (routeP1 sched st)
        (fun c hc => by obtain ⟨a, ha, rfl⟩ := List.mem_map.mp hc; simp)
    have g1 : (routeP1 sched st).1.st.output = (routeP0 st).1.st.output :=
      natStep_output sched NatCmd.newChain (routeP0 st) (by simp)
    rw [g4, g3, g2, g1]
    exact (teardown_clears st hwf).2

/-- Witness for **C2** (amended): a failed DNAT append on a well-formed
empty state leaves zero OUTPUT jumps, via the theorem. -/
theorem routeDNS_failed_install_witness :
    natWF ⟨none, []⟩ ∧
      (routeDNS schedFailDnat "10.96.0.10" "127.0.0.1:37123" [⟨"192.168.0.2", 40001⟩]
        ⟨none, []⟩).2 = false ∧
      countTp (routeDNS schedFailDnat "10.96.0.10" "127.0.0.1:37123" [⟨"192.168.0.2", 40001⟩]
        ⟨none, []⟩).1.st.output = 0 :=
  ⟨⟨by decide, fun _ => rfl⟩, by decide,
    (routeDNS_failed_install schedFailDnat "10.96.0.10" "127.0.0.1:37123"
      [⟨"192.168.0.2", 40001⟩] ⟨none, []⟩).2 ⟨by decide, fun _ => rfl⟩ (by decide)⟩

/-- **C4.**  Every successful install with upstream `10.96.0.10`, a pool
of 10 local addresses and local DNS address `127.0.0.1:37123`, starting
from a well-formed state, produces the chain containing exactly one RETURN
rule per pool-local address, in order, followed by exactly one DNAT rule
`udp --dest 10.96.0.10/32 --dport 53 --to-destination 127.0.0.1:37123`,
and the OUTPUT hook holds exactly one jump to the chain, at position 1
(the head), inserted after the rules were appended. -/
theorem routeDNS_override_install (sched : Nat → Bool) (addrs : List UdpAddr) (st : NatState)
    (hwf : natWF st) (hlen : addrs.length = 10)
    (hok : (routeDNS sched "10.96.0.10" "127.0.0.1:37123" addrs st).2 = true) :
    (routeDNS sched "10.96.0.10" "127.0.0.1:37123" addrs st).1.st.tpChain
        = some (addrs.map (fun a => NatRule.ret a.ip a.port) ++
            [NatRule.dnat "10.96.0.10/32" 53 "127.0.0.1:37123"]) ∧
      (addrs.map (fun a => NatRule.ret a.ip a.port)).length = 10 ∧
      (routeDNS sched "10.96.0.10" "127.0.0.1:37123" addrs st).1.st.output.head?
        = some tpDNSChain ∧
      countTp (routeDNS sched "10.96.0.10" "127.0.0.1:37123" addrs st).1.st.output = 1 := by
  obtain ⟨h3ok, hex4⟩ := natStep_success sched NatCmd.insertOutput
    (routeP3 sched "10.96.0.10" "127.0.0.1:37123" addrs st) hok
  have hp4 : (routeDNS sched "10.96.0.10" "127.0.0.1:37123" addrs st).1.st
      = { (routeP3 sched "10.96.0.10" "127.0.0.1:37123" addrs st).1.st with
          output := tpDNSChain ::
            (routeP3 sched "10.96.0.10" "127.0.0.1:37123" addrs st).1.st.output } := by
    have h2 : (routeP3 sched "10.96.0.10" "127.0.0.1:37123" addrs st).1.st.execMutCmd
        NatCmd.insertOutput
        = some { (routeP3 sched "10.96.0.10" "127.0.0.1:37123" addrs st).1.st with
            output := tpDNSChain ::
              (routeP3 sched "10.96.0.10" "127.0.0.1:37123" addrs st).1.st.output } := rfl
    rw [hex4] at h2
    exact Option.some.inj h2
  obtain ⟨h2ok, hex3⟩ := natStep_success sched
    (NatCmd.appendDnat ("10.96.0.10" ++ "/32") "127.0.0.1:37123") (routeP2 sched addrs st) h3ok
  obtain ⟨h1ok, hchain⟩ := natSteps_rets_success sched addrs (routeP1 sched st) h2ok
  obtain ⟨h0ok, hex1⟩ := natStep_success sched NatCmd.newChain (routeP0 st) h1ok
  have hch0 : (routeP0 st).1.st.tpChain = none := (teardown_clears st hwf).1
  have hp1 : (routeP1 sched st).1.st = { (routeP0 st).1.st with tpChain := some [] } := by
    have h2 : (routeP0 st).1.st.execMutCmd NatCmd.newChain
        = some { (routeP0 st).1.st with tpChain := some [] } := by
      unfold NatState.execMutCmd
      rw [hch0]
      simp
    rw [hex1] at h2
    exact Option.some.inj h2
  have hchain2 : (routeP2 sched addrs st).1.st.tpChain
      = some (addrs.map (fun a => NatRule.ret a.ip a.port)) := by
    have h2 := hchain [] (by rw [hp1])
    simpa using h2
  have hp3 : (routeP3 sched "10.96.0.10" "127.0.0.1:37123" addrs st).1.st
      = { (routeP2 sched addrs st).1.st with
          tpChain := some (addrs.map (fun a => NatRule.ret a.ip a.port) ++
            [NatRule.dnat ("10.96.0.10" ++ "/32") 53 "127.0.0.1:37123"]) } := by
    have h2 : (routeP2 sched addrs st).1.st.execMutCmd
        (NatCmd.appendDnat ("10.96.0.10" ++ "/32") "127.0.0.1:37123")
        = some { (routeP2 sched addrs st).1.st with
            tpChain := some (addrs.map (fun a => NatRule.ret a.ip a.port) ++
              [NatRule.dnat ("10.96.0.10" ++ "/32") 53 "127.0.0.1:37123"]) } := by
      unfold NatState.execMutCmd
      rw [hchain2]
    rw [hex3] at h2
    exact Option.some.inj h2
  have hout2 : (routeP2 sched addrs st).1.st.output = (routeP1 sched st).1.st.output :=
    natSteps_output sched (addrs.map NatCmd.appendRet) (routeP1 sched st)
      (fun c hc => by obtain ⟨a, ha, rfl⟩ := List.mem_map.mp hc; simp)
  have hout1 : (routeP1 sched st).1.st.output = (routeP0 st).1.st.output :=
    natStep_output sched NatCmd.newChain (routeP0 st) (by simp)
  have hcnt0 : countTp (routeP0 st).1.st.output = 0 := (teardown_clears st hwf).2
  have hstr : ("10.96.0.10" ++ "/32" : String) = "10.96.0.10/32" := by decide
  refine ⟨?_, ?_, ?_, ?_⟩
  · rw [hp4]
    show (routeP3 sched "10.96.0.10" "127.0.0.1:37123" addrs st).1.st.tpChain = _
    rw [hp3]
    show some (addrs.map (fun a => NatRule.ret a.ip a.port) ++
        [NatRule.dnat ("10.96.0.10" ++ "/32") 53 "127.0.0.1:37123"]) = _
    rw [hstr]
  · simp [hlen]
  · rw [hp4]
    rfl
  · rw [hp4]
    show countTp (tpDNSChain ::
      (routeP3 sched "10.96.0.10" "127.0.0.1:37123" addrs st).1.st.output) = 1
    rw [countTp, if_pos rfl]
    have h5 : (routeP3 sched "10.96.0.10" "127.0.0.1:37123" addrs st).1.st.output
        = (routeP2 sched addrs st).1.st.output := by rw [hp3]
    rw [h5, hout2, hout1, hcnt0]

/-- Witness for **C4**: the all-success schedule from the empty state with
10 pool addresses yields exactly the claimed chain and one OUTPUT jump. -/
theorem routeDNS_override_install_witness :
    (routeDNS (fun _ => true) "10.96.0.10" "127.0.0.1:37123" poolAddrs10 ⟨none, []⟩).2 = true ∧
      (routeDNS (fun _ => true) "10.96.0.10" "127.0.0.1:37123" poolAddrs10
        ⟨none, []⟩).1.st.tpChain
        = some (poolAddrs10.map (fun a => NatRule.ret a.ip a.port) ++
            [NatRule.dnat "10.96.0.10/32" 53 "127.0.0.1:37123"]) ∧
      countTp (routeDNS (fun _ => true) "10.96.0.10" "127.0.0.1:37123" poolAddrs10
        ⟨none, []⟩).1.st.output = 1 :=
  ⟨by decide,
    (routeDNS_override_install (fun _ => true) poolAddrs10 ⟨none, []⟩
      ⟨by decide, fun _ => rfl⟩ (by decide) (by decide)).1,
    (routeDNS_override_install (fun _ => true) poolAddrs10 ⟨none, []⟩
      ⟨by decide, fun _ => rfl⟩ (by decide) (by decide)).2.2.2⟩

theorem charToNat_ofNat (n : Nat) (h1 : n < 55296) : (Char.ofNat n).toNat = n := by
  rw [Char.ofNat, dif_pos (Or.inl h1)]
  rfl

theorem charLe_iff_toNat (a b : Char) : a ≤ b ↔ a.toNat ≤ b.toNat := by
  rw [Char.le_def, UInt32.le_def, BitVec.le_def]
  exact Iff.rfl

theorem notUpper_toLower (c : Char) : ¬('A' ≤ Char.toLower c ∧ Char.toLower c ≤ 'Z') := by
  have hZ : ('Z' : Char).toNat = 90 := by decide
  have hA : ('A' : Char).toNat = 65 := by decide
  unfold Char.toLower
  by_cases hr : c.toNat ≥ 65 ∧ c.toNat ≤ 90
  · rw [if_pos hr]
    rintro ⟨h1, h2⟩
    rw [charLe_iff_toNat, charToNat_ofNat _ (by omega), hZ] at h2
    omega
  · rw [if_neg hr]
    rintro ⟨h1, h2⟩
    rw [charLe_iff_toNat, hA] at h1
    rw [charLe_iff_toNat, hZ] at h2
    exact hr ⟨h1, h2⟩

theorem toLower_eq_dot_iff (c : Char) : Char.toLower c = '.' ↔ c = '.' := by
  constructor
  · intro he
    unfold Char.toLower at he
    by_cases hr : c.toNat ≥ 65 ∧ c.toNat ≤ 90
    · rw [if_pos hr] at he
      have h2 := congrArg Char.toNat he
      rw [charToNat_ofNat _ (by omega)] at h2
      have h3 : Char.toNat '.' = 46 := by decide
      omega
    · rwa [if_neg hr] at he
  · intro he
    subst he
    decide

theorem getLast?_map (f : Char → Char) (l : List Char) :
    (l.map f).getLast? = l.getLast?.map f := by
  induction l with
  | nil => rfl
  | cons a rest ih =>
    cases rest with
    | nil => rfl
    | cons b r2 =>
      rw [List.map_cons, List.map_cons, List.getLast?_cons_cons, ← List.map_cons, ih,
        List.getLast?_cons_cons]

theorem dropLast_map (f : Char → Char) (l : List Char) :
    (l.map f).dropLast = l.dropLast.map f := by
  induction l with
  | nil => rfl
  | cons a rest ih =>
    cases rest with
    | nil => rfl
    | cons b r2 =>
      rw [List.map_cons, List.map_cons, List.dropLast_cons₂, List.dropLast_cons₂,
        ← List.map_cons, ih]
      rfl

theorem ensureTrailingDot_getLast (sp : List Char) :
    (ensureTrailingDot sp).getLast? = some '.' := by
  unfold ensureTrailingDot
  by_cases hl : sp.getLast? ≠ some '.'
  · rw [if_pos hl, List.getLast?_concat]
  · rw [if_neg hl]
    exact not_not.mp hl

theorem ensureTrailingDot_head (sp : List Char) (h : sp.length > 0) :
    (ensureTrailingDot sp).head? = sp.head? := by
  unfold ensureTrailingDot
  by_cases hl : sp.getLast? ≠ some '.'
  · rw [if_pos hl]
    cases sp with
    | nil => cases h
    | cons a rest => rfl
  · rw [if_neg hl]

theorem ensureTrailingDot_noTwoDots (sp : List Char) (h : ¬ endsTwoDots sp) :
    ¬ endsTwoDots (ensureTrailingDot sp) := by
  unfold ensureTrailingDot
  by_cases hl : sp.getLast? ≠ some '.'
  · rw [if_pos hl]
    rintro ⟨h1, h2⟩
    rw [List.dropLast_concat] at h2
    exact hl h2
  · rw [if_neg hl]
    exact h

theorem optMap_toLower_dot (o : Option Char) (h : o.map Char.toLower = some '.') :
    o = some '.' := by
  cases o with
  | none => cases h
  | some c =>
    have h2 := Option.some.inj h
    rw [(toLower_eq_dot_iff c).mp h2]

/-- **C5** (counterexample).  Claim as stated is false: the search entry
`..x` is stored as `.x.` which has a leading dot (only one leading dot is
stripped), and the entry `x..` is stored as `x..` which ends in two
trailing dots (a dot is appended only when the last byte is not already a
dot, and extra trailing dots are never removed). -/
theorem normEntry_counterexample :
    normEntry ['.', '.', 'x'] = some ['.', 'x', '.'] ∧
      (['.', 'x', '.'] : List Char).head? = some '.' ∧
      normEntry ['x', '.', '.'] = some ['x', '.', '.'] ∧
      endsTwoDots ['x', '.', '.'] :=
  ⟨by decide, by decide, by decide, ⟨by decide, by decide⟩⟩

/-- **C5** (amended).  Every stored drop-suffix is non-empty, lower-cased
(contains no `A`–`Z` byte) and ends with a trailing dot; moreover when the
source entry does not begin with two dots the stored suffix has no leading
dot, and when the source entry does not end with two dots the stored
suffix ends with exactly one trailing dot. -/
theorem normEntry_normalized (sp s : List Char) (h : normEntry sp = some s) :
    s ≠ [] ∧ s.getLast? = some '.' ∧
      (∀ c ∈ s, ¬('A' ≤ c ∧ c ≤ 'Z')) ∧
      (sp.take 2 ≠ ['.', '.'] → s.head? ≠ some '.') ∧
      (¬ endsTwoDots sp → ¬ endsTwoDots s) := by
  unfold normEntry at h
  by_cases h0 : sp.length > 0
  swap
  · rw [if_neg h0] at h; cases h
  rw [if_pos h0] at h
  by_cases h1 : (stripLeadingDot sp).length > 0
  swap
  · rw [if_neg h1] at h; cases h
  rw [if_pos h1] at h
  cases h
  have hlen2 : (ensureTrailingDot (stripLeadingDot sp)).length > 0 := by
    unfold ensureTrailingDot
    by_cases hl : (stripLeadingDot sp).getLast? ≠ some '.'
    · rw [if_pos hl, List.length_append]; omega
    · rw [if_neg hl]; exact h1
  refine ⟨?_, ?_, ?_, ?_, ?_⟩
  · intro hnil
    have h2 := congrArg List.length hnil
    rw [List.length_map, List.length_nil] at h2
    omega
  · rw [getLast?_map, ensureTrailingDot_getLast _]
    show some (Char.toLower '.') = some '.'
    decide
  · intro c hc
    obtain ⟨c0, hc0, rfl⟩ := List.mem_map.mp hc
    exact notUpper_toLower c0
  · intro htake
    rw [List.head?_map, ensureTrailingDot_head _ h1]
    have hh : (stripLeadingDot sp).head? ≠ some '.' := by
      unfold stripLeadingDot
      by_cases hd : sp.head? = some '.'
      · rw [if_pos hd]
        cases sp with
        | nil => simp at h0
        | cons a t =>
          have ha : a = '.' := Option.some.inj hd
          cases t with
          | nil =>
            exfalso
            unfold stripLeadingDot at h1
            rw [if_pos hd] at h1
            simp at h1
          | cons b t2 =>
            intro hb
            have hbb : b = '.' := Option.some.inj hb
            apply htake
            rw [ha, hbb]
            rfl
      · rw [if_neg hd]; exact hd
    intro hcon
    exact hh (optMap_toLower_dot _ hcon)
  · intro hsp hcon
    obtain ⟨ha, hb⟩ := hcon
    rw [getLast?_map] at ha
    rw [dropLast_map, getLast?_map] at hb
    have ha' := optMap_toLower_dot _ ha
    have hb' := optMap_toLower_dot _ hb
    have hsp1 : ¬ endsTwoDots (stripLeadingDot sp) := by
      unfold stripLeadingDot
      by_cases hd : sp.head? = some '.'
      · rw [if_pos hd]
        cases sp with
        | nil => simp at h0
        | cons a t =>
          intro hT
          apply hsp
          cases t with
          | nil => cases hT.1
          | cons b t2 =>
            obtain ⟨x, y⟩ := hT
            rw [List.tail_cons] at x y
            constructor
            · rw [List.getLast?_cons_cons]
              exact x
            · show (a :: b :: t2).dropLast.getLast? = some '.'
              rw [List.dropLast_cons₂]
              cases hD : (b :: t2).dropLast with
              | nil => rw [hD] at y; simp at y
              | cons d d2 =>
                rw [hD] at y
                rw [List.getLast?_cons_cons]
                exact y
      · rw [if_neg hd]; exact hsp
    exact (ensureTrailingDot_noTwoDots _ hsp1) ⟨ha', hb'⟩

/-- Witness for **C5** (amended): the entry `Ax` is stored as `ax.` —
non-empty, lower-cased, no leading dot, one trailing dot. -/
theorem normEntry_normalized_witness :
    normEntry ['A', 'x'] = some ['a', 'x', '.'] ∧
      (['a', 'x', '.'] : List Char) ≠ [] ∧
      (['a', 'x', '.'] : List Char).head? ≠ some '.' :=
  ⟨by decide,
    (normEntry_normalized ['A', 'x'] ['a', 'x', '.'] (by decide)).1,
    (normEntry_normalized ['A', 'x'] ['a', 'x', '.'] (by decide)).2.2.2.1 (by decide)⟩

/-- **C7.** When no upstream address was provided (invalid `LocalIP`) and
the host resolver file has no `nameserver` line, the override variant
fails with a configuration error before any effect: no firewall command
is issued and no listener or connection pool is created (let alone
survives the call). -/
theorem runOverridingServer_no_nameserver (env : OvEnv) (search : List (List Char))
    (drop0 : List (List Char)) (hrf : env.rfResult = .ok ⟨[], search⟩) :
    runOverridingServer env none drop0
      = (.error (.config "couldn't determine dns ip from /etc/resolv.conf"), []) := by
  unfold runOverridingServer
  rw [hrf]
  rfl

/-- Witness for **C7**. -/
theorem runOverridingServer_no_nameserver_witness :
    runOverridingServer envNoNS none []
      = (.error (.config "couldn't determine dns ip from /etc/resolv.conf"), []) :=
  runOverridingServer_no_nameserver envNoNS [['c', 'o', 'm']] [] rfl

/-- **C6** (counterexample).  Claim as stated is false: when `tryResolveD`
returns exactly the sentinel but the context is already cancelled, the
Worker does **not** fall back to the overriding server (it returns nil),
so "falls back iff the error is the sentinel" fails in the
sentinel-and-cancelled case. -/
theorem worker_fallback_not_iff_sentinel :
    ¬ ∀ (e : DnsErr) (ctxErr overriding : Option DnsErr),
        ((Worker false (some e) ctxErr overriding).2 = true ↔
          e = DnsErr.resolveDNotConfigured) := by
  intro hall
  have h := (hall DnsErr.resolveDNotConfigured (some DnsErr.cancelled) none).mpr rfl
  simp [Worker] at h

/-- **C6** (amended).  For every error returned by `tryResolveD`: the
Worker falls back to the overriding server iff that error is exactly the
`errResolveDNotConfigured` sentinel **and** the context has not been
cancelled; any other error is propagated out of Worker unchanged; and when
the sentinel occurs the sentinel itself is never returned — the Worker
returns the overriding server's result (or nil when the context was
already cancelled). -/
theorem worker_fallback_semantics (e : DnsErr) (ctxErr overriding : Option DnsErr) :
    ((Worker false (some e) ctxErr overriding).2 = true ↔
        (e = DnsErr.resolveDNotConfigured ∧ ctxErr = none)) ∧
      (e ≠ DnsErr.resolveDNotConfigured →
        (Worker false (some e) ctxErr overriding).1 = some e) ∧
      (e = DnsErr.resolveDNotConfigured →
        (Worker false (some e) ctxErr overriding).1
          = (if ctxErr = none then overriding else none)) := by
  unfold Worker
  by_cases he : e = DnsErr.resolveDNotConfigured
  · subst he
    by_cases hc : ctxErr = none
    · simp [hc]
    · simp [hc]
  · simp [he]

/-- Witness for **C6** (amended): the sentinel with a live context falls
back; a non-sentinel error propagates unchanged. -/
theorem worker_fallback_semantics_witness :
    (Worker false (some DnsErr.resolveDNotConfigured) none (some (DnsErr.config "x"))).2
        = true ∧
      (Worker false (some (DnsErr.sys "boom")) none none).1 = some (DnsErr.sys "boom") :=
  ⟨(worker_fallback_semantics DnsErr.resolveDNotConfigured none
      (some (DnsErr.config "x"))).1.mpr ⟨rfl, rfl⟩,
    (worker_fallback_semantics (DnsErr.sys "boom") none none).2.1 (by decide)⟩

theorem sessionIngest_error_no_mutation (env : IngestEnv) (s : SessionSt) (rq : IngestRequest)
    (e : GrpcErr) (s' : SessionSt) (b : Bool)
    (h : sessionIngest env s rq = (.error e, s', b)) : s' = s ∧ b = false := by
  unfold sessionIngest at h
  cases hc : sessionIngestCore env s rq with
  | error e1 =>
    rw [hc] at h
    simp at h
    exact ⟨h.2.1.symm, h.2.2⟩
  | ok o =>
    rw [hc] at h
    cases o <;> simp at h

theorem sessionIngest_conflict_rejects (env : IngestEnv) (s : SessionSt) (rq : IngestRequest)
    (e : GrpcErr) (hcn : rq.containerName ≠ "")
    (hnl : lookupKey ⟨rq.workloadName, rq.containerName⟩ s.currentIngests = none)
    (hconf : ensureNoMountConflict s.currentIntercepts rq.mountPoint rq.localMountPort = some e) :
    sessionIngest env s rq = (.error e, s, false) := by
  have hcore : sessionIngestCore env s rq = .error e := by
    unfold sessionIngestCore
    cases hai : getCurrentAgent s rq.workloadName with
    | none => simp [hai, hcn, hnl, hconf]
    | some ai => simp [hai, hcn, hnl, hconf]
  unfold sessionIngest
  rw [hcore]

/-- **C9** (counterexample).  Claim as stated is false: a request whose
mount point is already in use by an existing intercept is **not**
rejected when the ingest key already exists — `Ingest` returns the
existing ingest with a nil error before the conflict check runs. -/
theorem ingest_existing_ingest_bypasses_conflict :
    (ensureNoMountConflict sessW.currentIntercepts rqW.mountPoint rqW.localMountPort).isSome
        = true ∧
      sessionIngest envW sessW rqW = (.ok (), sessW, false) :=
  ⟨by decide, rfl⟩

/-- **C9** (amended).  A request with empty mount point and zero mount
port never triggers the conflict error; on every error returned by
`Ingest` the session state is unchanged and the pod-access tracker was
not started (the conflict check runs before the ingest is created and
before `initialStart`); and a request that names its container, does not
match an already-existing ingest, and whose mount point or port is in use
by an existing intercept is rejected with exactly the `AlreadyExists`
conflict error, with state untouched. -/
theorem ingest_conflict_semantics (env : IngestEnv) (s : SessionSt) (rq : IngestRequest)
    (e : GrpcErr) :
    (∀ ics : List Intercept, ensureNoMountConflict ics "" 0 = none) ∧
      (∀ (e' : GrpcErr) (s' : SessionSt) (b : Bool),
        sessionIngest env s rq = (.error e', s', b) → s' = s ∧ b = false) ∧
      (rq.containerName ≠ "" →
        lookupKey ⟨rq.workloadName, rq.containerName⟩ s.currentIngests = none →
        ensureNoMountConflict s.currentIntercepts rq.mountPoint rq.localMountPort = some e →
        sessionIngest env s rq = (.error e, s, false)) := by
  refine ⟨?_, ?_, ?_⟩
  · intro ics
    simp [ensureNoMountConflict]
  · intro e' s' b h
    exact sessionIngest_error_no_mutation env s rq e' s' b h
  · exact sessionIngest_conflict_rejects env s rq e

/-- Witness for **C9** (amended). -/
theorem ingest_conflict_semantics_witness :
    ensureNoMountConflict [] "" 0 = none ∧
      sessionIngest envW sessV rqW = (.error errConflictV, sessV, false) :=
  ⟨(ingest_conflict_semantics envW sessV rqW errConflictV).1 [],
    (ingest_conflict_semantics envW sessV rqW errConflictV).2.2
      (by decide) (by decide) (by decide)⟩

end Telepresence

